import Mathlib

/-!
Verification of the rate-limiting / admission-control core of the Megawatts
repository (TypeScript), as a shallow embedding in Lean 4.

The embedding follows the source files:
  * `priorityQueue.ts`  — class `PriorityQueue`
  * `store.ts`          — class `MemoryRateLimitStore`
  * `middleware.ts`     — class `DiscordRateLimitMiddleware`
  * `orchestrator.ts`   — class `DiscordRateLimitOrchestrator`
  * `types.ts`          — the data model
`bucketManager.ts` is not present in the source tree (only its tests, README and
callers are); definitions for it are modelled from the specification, and each
such definition says so in its doc comment.

JavaScript `Date.now()` is modelled by an explicit `now : Nat` argument, promises
by numeric promise ids allocated by a counter (a `resolve`/`reject` pair attached
to a request is its current promise id), and `Array.prototype.sort` with the
comparator `(a, b) => a.timestamp - b.timestamp` by a stable insertion sort
(stable sorts are extensionally unique, so any stable sort models the JS one).
Counters that JavaScript stores in `number` and may decrement are modelled as
`Int` so that no truncation is hidden.
-/

/-- Embeds `QueuedRequest` from `types.ts`.  The `resolve`/`reject` completion handle is
modelled by `promiseId`: the id of the promise whose handlers are currently
attached to the request (`enqueue` overwrites it).  `bucketId` and `timeout` are
optional in the source; a missing `timeout` is JavaScript `undefined`, which is
falsy exactly like `0`, so `timeout = 0` models it. -/
structure QueuedRequest where
  id : String
  url : String
  method : String
  priority : Nat
  timestamp : Nat
  retryCount : Nat
  maxRetries : Nat
  timeout : Nat
  bucketId : Option String
  promiseId : Nat
deriving Repr, DecidableEq

/-- State of a `PriorityQueue` instance (`priorityQueue.ts`).  The constructor
initialises one array per `RequestPriority` value (0..4); `queues` is that map,
indexed by priority, always of length 5.  `totalSize` is the cached counter the
class maintains next to the actual queue contents. -/
structure PQState where
  queues : List (List QueuedRequest)
  maxSize : Nat
  totalSize : Int
  processing : Bool
deriving Repr, DecidableEq

/-- Embeds `new PriorityQueue(maxSize)`. -/
def PriorityQueue.init (maxSize : Nat) : PQState :=
  { queues := List.replicate 5 [], maxSize := maxSize, totalSize := 0, processing := false }

/-- Insert `r` in front of the first entry with a strictly larger timestamp.
On a timestamp-sorted list this is exactly where a stable sort of
`queue ++ [r]` puts `r`. -/
def insertByTimestamp (r : QueuedRequest) : List QueuedRequest → List QueuedRequest
  | [] => [r]
  | x :: xs => if r.timestamp < x.timestamp then r :: x :: xs else x :: insertByTimestamp r xs

/-- Stable sort by `timestamp`, modelling `queue.sort((a, b) => a.timestamp - b.timestamp)`
(ECMAScript sort is stable; a stable sort is extensionally unique, and this
left-to-right insertion is stable: an element inserted later is placed after all
equal-timestamp elements already present). -/
def sortByTimestamp (l : List QueuedRequest) : List QueuedRequest :=
  l.foldl (fun acc x => insertByTimestamp x acc) []

/-- What `PriorityQueue.enqueue` does to the promise it hands back: it either
stays pending (`queued`) or is rejected immediately with the queue-full or
invalid-priority error.  In the source the rejections are
`reject(new Error('Rate limit queue is full'))` and
`reject(new Error('Invalid priority level'))`. -/
inductive EnqueueOutcome
  | queued
  | rejectedFull
  | rejectedInvalid
deriving Repr, DecidableEq

/-- Embeds `PriorityQueue.enqueue(request)`.  `pid` is the id of the fresh promise the
call creates.  The full check happens before the handles are attached; on the
non-full path the request's `resolve`/`reject` are overwritten with the new
promise's handlers (`promiseId := pid`), then the queue for its priority is
looked up in the map (absent for a priority outside 0..4), pushed to, and
re-sorted by timestamp. -/
def PriorityQueue.enqueue (s : PQState) (r : QueuedRequest) (pid : Nat) :
    PQState × EnqueueOutcome :=
  if (s.maxSize : Int) ≤ s.totalSize then
    (s, .rejectedFull)
  else
    let r' := { r with promiseId := pid }
    match s.queues[r.priority]? with
    | some q =>
        ({ s with queues := s.queues.set r.priority (sortByTimestamp (q ++ [r'])),
                  totalSize := s.totalSize + 1 }, .queued)
    | none => (s, .rejectedInvalid)

/-- The scan of `PriorityQueue.dequeue`: walk the per-priority queues in
ascending priority order and `shift()` the head of the first non-empty one. -/
def dequeueFrom : List (List QueuedRequest) →
    Option (QueuedRequest × List (List QueuedRequest))
  | [] => none
  | [] :: rest =>
      match dequeueFrom rest with
      | none => none
      | some (r, rest') => some (r, [] :: rest')
  | (x :: xs) :: rest => some (x, xs :: rest)

/-- Embeds `PriorityQueue.dequeue()`: priorities 0..4 are scanned in ascending order;
the head of the first non-empty queue is removed and `totalSize` decremented. -/
def PriorityQueue.dequeue (s : PQState) : PQState × Option QueuedRequest :=
  match dequeueFrom s.queues with
  | none => (s, none)
  | some (r, qs') => ({ s with queues := qs', totalSize := s.totalSize - 1 }, some r)

/-- Embeds `PriorityQueue.getQueueSize(priority)`: the length of that priority's queue,
0 if the priority is not a key of the map. -/
def PriorityQueue.getQueueSize (s : PQState) (p : Nat) : Nat :=
  match s.queues[p]? with
  | some q => q.length
  | none => 0

/-- Embeds `PriorityQueue.getTotalSize()`. -/
def PriorityQueue.getTotalSize (s : PQState) : Int :=
  s.totalSize

/-- Embeds `now - request.timestamp > timeoutMs`, the expiry test of `removeExpired`
(for a request timestamped in the future JavaScript compares a negative number,
truncated subtraction compares 0; both fail the `>` test). -/
def requestExpired (now timeoutMs : Nat) (r : QueuedRequest) : Bool :=
  timeoutMs < now - r.timestamp

/-- Embeds `PriorityQueue.removeExpired(timeoutMs)`: every queue is swept from its end,
expired entries are spliced out, rejected with the queue-timeout error, counted,
and `totalSize` decremented per removal.  Returns the new state, the removed
count, and the requests whose `reject` was invoked (per queue, in the reverse
order of the backwards sweep). -/
def PriorityQueue.removeExpired (s : PQState) (now timeoutMs : Nat) :
    PQState × Nat × List QueuedRequest :=
  let rejected := (s.queues.map (fun q => (q.filter (requestExpired now timeoutMs)).reverse)).flatten
  ({ s with queues := s.queues.map (fun q => q.filter (fun r => !(requestExpired now timeoutMs r))),
            totalSize := s.totalSize - rejected.length },
   rejected.length, rejected)

/-- Embeds `PriorityQueue.clear()`: every queued request is rejected with the
queue-cleared error, all queues are emptied and `totalSize` reset to 0.
Returns the requests whose `reject` was invoked, in iteration order. -/
def PriorityQueue.clear (s : PQState) : PQState × List QueuedRequest :=
  ({ s with queues := s.queues.map (fun _ => ([] : List QueuedRequest)), totalSize := 0 },
   s.queues.flatten)

/-- Embeds `PriorityQueue.clearBucket(bucketId)`: entries whose `bucketId` matches are
spliced out of every queue (backwards sweep), rejected, counted, and
`totalSize` decremented per removal. -/
def PriorityQueue.clearBucket (s : PQState) (bucketId : String) :
    PQState × Nat × List QueuedRequest :=
  let rejected := (s.queues.map
      (fun q => (q.filter (fun r => r.bucketId == some bucketId)).reverse)).flatten
  ({ s with queues := s.queues.map (fun q => q.filter (fun r => !(r.bucketId == some bucketId))),
            totalSize := s.totalSize - rejected.length },
   rejected.length, rejected)

/-- Embeds `PriorityQueue.promoteRequests(bucketId, newPriority)`: matching entries are
removed from every strictly lower-urgency tier (`priority > newPriority`,
backwards sweep, `totalSize` decremented each), re-tagged with `newPriority`,
pushed onto the target queue (`totalSize` incremented each) and the target
queue re-sorted by timestamp.  If the target priority is not a key of the map
nothing is re-added. -/
def PriorityQueue.promoteRequests (s : PQState) (bucketId : String) (newPriority : Nat) :
    PQState × Nat :=
  let keep : QueuedRequest → Bool := fun r => !(r.bucketId == some bucketId)
  let stripped := s.queues.enum.map
      (fun pq => if newPriority < pq.1 then pq.2.filter keep else pq.2)
  let moved := (s.queues.enum.map
      (fun pq => if newPriority < pq.1
                 then (pq.2.filter (fun r => r.bucketId == some bucketId)).reverse
                 else [])).flatten
  match stripped[newPriority]? with
  | some target =>
      let moved' := moved.map (fun r => { r with priority := newPriority })
      ({ s with queues := stripped.set newPriority (sortByTimestamp (target ++ moved')),
                totalSize := s.totalSize - moved.length + moved'.length },
       moved'.length)
  | none =>
      ({ s with queues := stripped, totalSize := s.totalSize - moved.length }, 0)

/-! ### Sample data used by concrete witnesses -/

/-- A concrete request, as built in `priorityQueue.test.ts`. -/
def sampleReq : QueuedRequest :=
  { id := "1", url := "POST/channels/123/messages", method := "POST", priority := 2,
    timestamp := 100, retryCount := 0, maxRetries := 3, timeout := 0,
    bucketId := some "bucket1", promiseId := 0 }

/-- A second concrete request at another priority. -/
def sampleReq2 : QueuedRequest :=
  { id := "2", url := "POST/interactions/9/callback", method := "POST", priority := 0,
    timestamp := 105, retryCount := 0, maxRetries := 3, timeout := 0,
    bucketId := some "bucket2", promiseId := 0 }

/-! ### C6: a full queue rejects enqueue and is left unchanged -/

/-- Claim C6: whenever the priority queue already holds `maxSize` entries
(`getTotalSize() >= maxSize`), the next `PriorityQueue.enqueue` fails fast by
rejecting with the explicit queue-full error, and the queue state (contents and
size) is exactly the state before the call. -/
theorem enqueue_full_fails_fast (s : PQState) (r : QueuedRequest) (pid : Nat)
    (h : (s.maxSize : Int) ≤ PriorityQueue.getTotalSize s) :
    PriorityQueue.enqueue s r pid = (s, EnqueueOutcome.rejectedFull) := by
  simp only [PriorityQueue.getTotalSize] at h
  simp [PriorityQueue.enqueue, h]

/-- Witness for claim C6: a queue of capacity 1 holding one request rejects the
next enqueue and is unchanged. -/
theorem enqueue_full_fails_fast_witness :
    ((((PriorityQueue.enqueue (PriorityQueue.init 1) sampleReq 0).1.maxSize : Nat) : Int) ≤
        PriorityQueue.getTotalSize (PriorityQueue.enqueue (PriorityQueue.init 1) sampleReq 0).1) ∧
      PriorityQueue.enqueue (PriorityQueue.enqueue (PriorityQueue.init 1) sampleReq 0).1 sampleReq2 1 =
        ((PriorityQueue.enqueue (PriorityQueue.init 1) sampleReq 0).1, EnqueueOutcome.rejectedFull) :=
  ⟨by decide, enqueue_full_fails_fast _ _ _ (by decide)⟩

/-! ### C10: the cached `totalSize` never drifts from the per-tier contents -/

/-- One call of the public mutating interface of `PriorityQueue`. -/
inductive PQOp
  | enqueueOp (r : QueuedRequest) (pid : Nat)
  | dequeueOp
  | removeExpiredOp (now timeoutMs : Nat)
  | clearBucketOp (bucketId : String)
  | promoteRequestsOp (bucketId : String) (newPriority : Nat)
  | clearOp
deriving Repr

/-- The state reached by one `PriorityQueue` operation. -/
def PQState.applyOp (s : PQState) : PQOp → PQState
  | .enqueueOp r pid => (PriorityQueue.enqueue s r pid).1
  | .dequeueOp => (PriorityQueue.dequeue s).1
  | .removeExpiredOp now timeoutMs => (PriorityQueue.removeExpired s now timeoutMs).1
  | .clearBucketOp b => (PriorityQueue.clearBucket s b).1
  | .promoteRequestsOp b p => (PriorityQueue.promoteRequests s b p).1
  | .clearOp => (PriorityQueue.clear s).1

/-- The state reached by a sequence of `PriorityQueue` operations. -/
def PQState.applyOps (s : PQState) (ops : List PQOp) : PQState :=
  ops.foldl PQState.applyOp s

/-- The structural invariant of a `PriorityQueue`: the map has exactly the 5
priority keys, and the cached `totalSize` counter equals the number of requests
actually held. -/
def PQSizeInv (s : PQState) : Prop :=
  s.queues.length = 5 ∧ s.totalSize = ((s.queues.map List.length).sum : Int)

theorem length_insertByTimestamp (r : QueuedRequest) (l : List QueuedRequest) :
    (insertByTimestamp r l).length = l.length + 1 := by
  induction l with
  | nil => rfl
  | cons x xs ih =>
      by_cases h : r.timestamp < x.timestamp <;> simp [insertByTimestamp, h, ih]

theorem length_foldl_insertByTimestamp (l acc : List QueuedRequest) :
    (l.foldl (fun a x => insertByTimestamp x a) acc).length = acc.length + l.length := by
  induction l generalizing acc with
  | nil => rfl
  | cons x xs ih => simp [List.foldl_cons, ih, length_insertByTimestamp]; omega

theorem length_sortByTimestamp (l : List QueuedRequest) :
    (sortByTimestamp l).length = l.length := by
  simp [sortByTimestamp, length_foldl_insertByTimestamp]

theorem length_filter_split {α : Type} (p : α → Bool) (l : List α) :
    (l.filter (fun x => !(p x))).length + (l.filter p).length = l.length := by
  induction l with
  | nil => rfl
  | cons x xs ih => by_cases h : p x <;> simp [List.filter_cons, h] <;> omega

theorem dequeueFrom_spec (qs : List (List QueuedRequest)) :
    (dequeueFrom qs = none → (qs.map List.length).sum = 0) ∧
    (∀ r qs', dequeueFrom qs = some (r, qs') →
      qs'.length = qs.length ∧ (qs'.map List.length).sum + 1 = (qs.map List.length).sum) := by
  induction qs with
  | nil => exact ⟨fun _ => rfl, fun r qs' h => by simp [dequeueFrom] at h⟩
  | cons q rest ih =>
      cases q with
      | nil =>
          refine ⟨fun h => ?_, fun r qs' h => ?_⟩
          · simp only [dequeueFrom] at h
            cases hrec : dequeueFrom rest with
            | none => simpa using ih.1 hrec
            | some v => rw [hrec] at h; cases h
          · simp only [dequeueFrom] at h
            cases hrec : dequeueFrom rest with
            | none => rw [hrec] at h; cases h
            | some v =>
                obtain ⟨r2, rest2⟩ := v
                have hspec := ih.2 r2 rest2 hrec
                rw [hrec] at h
                cases h
                constructor
                · simpa using hspec.1
                · simp only [List.map_cons, List.sum_cons, List.length_nil]
                  omega
      | cons x xs =>
          refine ⟨fun h => by simp [dequeueFrom] at h, fun r qs' h => ?_⟩
          simp only [dequeueFrom] at h
          cases h
          refine ⟨by simp, ?_⟩
          simp only [List.map_cons, List.sum_cons, List.length_cons]
          omega

theorem sum_map_length_set (qs : List (List QueuedRequest)) (p : Nat)
    (q q' : List QueuedRequest) (h : qs[p]? = some q) :
    (((qs.set p q').map List.length).sum + q.length : Nat) =
      (qs.map List.length).sum + q'.length := by
  induction qs generalizing p with
  | nil => simp at h
  | cons a rest ih =>
      cases p with
      | zero =>
          simp at h
          subst h
          simp [List.set]
          omega
      | succ n =>
          simp only [List.getElem?_cons_succ] at h
          simp only [List.set, List.map_cons, List.sum_cons]
          have := ih n h
          omega

theorem sum_map_split {α : Type} (qs : List (List α)) (f g : List α → Nat)
    (h : ∀ q, f q + g q = q.length) :
    (qs.map f).sum + (qs.map g).sum = (qs.map List.length).sum := by
  induction qs with
  | nil => rfl
  | cons q rest ih =>
      simp only [List.map_cons, List.sum_cons]
      have := h q
      omega

theorem sum_map_add_eq {α : Type} (E : List α) (f g k : α → Nat)
    (h : ∀ x ∈ E, f x + g x = k x) :
    (E.map f).sum + (E.map g).sum = (E.map k).sum := by
  induction E with
  | nil => rfl
  | cons a rest ih =>
      simp only [List.map_cons, List.sum_cons]
      have ha := h a (by simp)
      have hr := ih (fun x hx => h x (by simp [hx]))
      omega

theorem sum_map_length_enum_snd (qs : List (List QueuedRequest)) :
    (qs.enum.map (fun pq => pq.2.length)).sum = (qs.map List.length).sum := by
  have : (qs.enum.map (fun pq => pq.2.length)) = (qs.enum.map Prod.snd).map List.length := by
    rw [List.map_map]
    rfl
  rw [this, List.enum_map_snd]

/-- Every single `PriorityQueue` operation preserves the size invariant. -/
theorem pq_applyOp_sizeInv (s : PQState) (op : PQOp) (h : PQSizeInv s) :
    PQSizeInv (s.applyOp op) := by
  obtain ⟨h5, hsum⟩ := h
  cases op with
  | enqueueOp r pid =>
      simp only [PQState.applyOp, PriorityQueue.enqueue]
      by_cases hfull : (s.maxSize : Int) ≤ s.totalSize
      · simp only [hfull, if_true]
        exact ⟨h5, hsum⟩
      · simp only [hfull, if_false]
        cases hq : s.queues[r.priority]? with
        | none => simp only [hq]; exact ⟨h5, hsum⟩
        | some q =>
            simp only [hq]
            refine ⟨by simpa using h5, ?_⟩
            have hset := sum_map_length_set s.queues r.priority q
              (sortByTimestamp (q ++ [{r with promiseId := pid}])) hq
            rw [length_sortByTimestamp, List.length_append, List.length_cons,
              List.length_nil] at hset
            simp only []
            omega
  | dequeueOp =>
      simp only [PQState.applyOp, PriorityQueue.dequeue]
      cases hd : dequeueFrom s.queues with
      | none => simp only [hd]; exact ⟨h5, hsum⟩
      | some v =>
          obtain ⟨r, qs'⟩ := v
          have hspec := (dequeueFrom_spec s.queues).2 r qs' hd
          simp only [hd]
          refine ⟨by rw [hspec.1, h5], ?_⟩
          have := hspec.2
          simp only []
          omega
  | removeExpiredOp now timeoutMs =>
      simp only [PQState.applyOp, PriorityQueue.removeExpired]
      constructor
      · simpa using h5
      · have hlen : ((s.queues.map
            (fun q => (q.filter (requestExpired now timeoutMs)).reverse)).flatten).length =
            (s.queues.map (fun q => (q.filter (requestExpired now timeoutMs)).length)).sum := by
          rw [List.length_flatten, List.map_map]
          have hfg : (List.length ∘ fun q : List QueuedRequest =>
              (q.filter (requestExpired now timeoutMs)).reverse) =
              (fun q : List QueuedRequest => (q.filter (requestExpired now timeoutMs)).length) := by
            funext q
            simp [Function.comp]
          rw [hfg]
        have hsplit := sum_map_add_eq s.queues
          (fun q => (q.filter (fun r => !(requestExpired now timeoutMs r))).length)
          (fun q => (q.filter (requestExpired now timeoutMs)).length)
          List.length
          (fun q _ => length_filter_split _ q)
        have hmm : ((s.queues.map (fun q =>
            q.filter (fun r => !(requestExpired now timeoutMs r)))).map List.length).sum =
            (s.queues.map (fun q =>
              (q.filter (fun r => !(requestExpired now timeoutMs r))).length)).sum := by
          rw [List.map_map]
          rfl
        simp only [hmm, hlen]
        omega
  | clearBucketOp b =>
      simp only [PQState.applyOp, PriorityQueue.clearBucket]
      constructor
      · simpa using h5
      · have hlen : ((s.queues.map
            (fun q => (q.filter (fun r => r.bucketId == some b)).reverse)).flatten).length =
            (s.queues.map (fun q => (q.filter (fun r => r.bucketId == some b)).length)).sum := by
          rw [List.length_flatten, List.map_map]
          have hfg : (List.length ∘ fun q : List QueuedRequest =>
              (q.filter (fun r => r.bucketId == some b)).reverse) =
              (fun q : List QueuedRequest => (q.filter (fun r => r.bucketId == some b)).length) := by
            funext q
            simp [Function.comp]
          rw [hfg]
        have hsplit := sum_map_add_eq s.queues
          (fun q => (q.filter (fun r => !(r.bucketId == some b))).length)
          (fun q => (q.filter (fun r => r.bucketId == some b)).length)
          List.length
          (fun q _ => length_filter_split _ q)
        have hmm : ((s.queues.map (fun q =>
            q.filter (fun r => !(r.bucketId == some b)))).map List.length).sum =
            (s.queues.map (fun q =>
              (q.filter (fun r => !(r.bucketId == some b))).length)).sum := by
          rw [List.map_map]
          rfl
        simp only [hmm, hlen]
        omega
  | promoteRequestsOp b p =>
      simp only [PQState.applyOp, PriorityQueue.promoteRequests]
      have hstriplen : (s.queues.enum.map
          (fun pq => if p < pq.1 then pq.2.filter (fun r => !(r.bucketId == some b)) else pq.2)).length
          = 5 := by
        simpa using h5
      have hmovelen : ((s.queues.enum.map
          (fun pq => if p < pq.1
                     then (pq.2.filter (fun r => r.bucketId == some b)).reverse
                     else [])).flatten).length =
          (s.queues.enum.map
            (fun pq => if p < pq.1
                       then (pq.2.filter (fun r => r.bucketId == some b)).length
                       else 0)).sum := by
        rw [List.length_flatten, List.map_map]
        have hfg : (List.length ∘ fun pq : Nat × List QueuedRequest =>
            if p < pq.1 then (pq.2.filter (fun r => r.bucketId == some b)).reverse else []) =
            (fun pq : Nat × List QueuedRequest =>
              if p < pq.1 then (pq.2.filter (fun r => r.bucketId == some b)).length else 0) := by
          funext pq
          by_cases hc : p < pq.1 <;> simp [Function.comp, hc]
        rw [hfg]
      have hsplit := sum_map_add_eq s.queues.enum
        (fun pq => (if p < pq.1 then pq.2.filter (fun r => !(r.bucketId == some b)) else pq.2).length)
        (fun pq => if p < pq.1 then (pq.2.filter (fun r => r.bucketId == some b)).length else 0)
        (fun pq => pq.2.length)
        (by
          intro pq _
          by_cases hc : p < pq.1
          · simp only [hc, if_true]
            exact length_filter_split _ pq.2
          · simp [hc])
      rw [sum_map_length_enum_snd] at hsplit
      have hmm : ((s.queues.enum.map
          (fun pq => if p < pq.1 then pq.2.filter (fun r => !(r.bucketId == some b)) else pq.2)).map
            List.length).sum =
          (s.queues.enum.map
            (fun pq => (if p < pq.1 then pq.2.filter (fun r => !(r.bucketId == some b)) else pq.2).length)).sum := by
        rw [List.map_map]
        rfl
      cases htarget : (s.queues.enum.map
          (fun pq => if p < pq.1 then pq.2.filter (fun r => !(r.bucketId == some b)) else pq.2))[p]? with
      | none =>
          simp only [htarget]
          refine ⟨hstriplen, ?_⟩
          dsimp only
          rw [hmovelen, hmm]
          omega
      | some target =>
          simp only [htarget]
          constructor
          · simpa using hstriplen
          · have hset := sum_map_length_set _ p target
              (sortByTimestamp (target ++ ((s.queues.enum.map
                (fun pq => if p < pq.1
                           then (pq.2.filter (fun r => r.bucketId == some b)).reverse
                           else [])).flatten).map
                  (fun r => { r with priority := p }))) htarget
            rw [length_sortByTimestamp, List.length_append, List.length_map] at hset
            rw [hmovelen] at hset
            rw [hmm] at hset
            dsimp only
            rw [List.length_map, hmovelen]
            omega
  | clearOp =>
      simp only [PQState.applyOp, PriorityQueue.clear]
      refine ⟨by simpa using h5, ?_⟩
      have : ((s.queues.map (fun _ => ([] : List QueuedRequest))).map List.length).sum = 0 := by
        induction s.queues with
        | nil => rfl
        | cons a t ih => simp [ih]
      simp [this]

theorem pq_init_sizeInv (maxSize : Nat) : PQSizeInv (PriorityQueue.init maxSize) := by
  constructor <;> simp [PriorityQueue.init]

theorem pq_applyOps_sizeInv (s : PQState) (ops : List PQOp) (h : PQSizeInv s) :
    PQSizeInv (s.applyOps ops) := by
  induction ops generalizing s with
  | nil => exact h
  | cons op rest ih => exact ih _ (pq_applyOp_sizeInv s op h)

theorem sum_getQueueSize_of_len5 (s : PQState) (h : s.queues.length = 5) :
    ((List.range 5).map (fun p => PriorityQueue.getQueueSize s p)).sum =
      (s.queues.map List.length).sum := by
  obtain ⟨qs, maxSize, totalSize, processing⟩ := s
  simp only at h
  match qs, h with
  | [a, b, c, d, e], _ =>
      simp [PriorityQueue.getQueueSize, List.range_succ]

/-- Claim C10: after any sequence of `PriorityQueue` operations (enqueue, dequeue,
removeExpired, clearBucket, promoteRequests, clear) applied to a freshly
constructed queue, `getTotalSize()` equals the sum over the 5 priority tiers of
`getQueueSize(priority)`: the cached total counter never drifts from the actual
per-tier queue contents. -/
theorem pq_totalSize_never_drifts (maxSize : Nat) (ops : List PQOp) :
    PriorityQueue.getTotalSize ((PriorityQueue.init maxSize).applyOps ops) =
      ((((List.range 5).map
        (fun p => PriorityQueue.getQueueSize ((PriorityQueue.init maxSize).applyOps ops) p)).sum : Nat) : Int) := by
  have hinv := pq_applyOps_sizeInv _ ops (pq_init_sizeInv maxSize)
  obtain ⟨h5, hsum⟩ := hinv
  rw [PriorityQueue.getTotalSize, hsum, sum_getQueueSize_of_len5 _ h5]

/-! ### C1: strict priority with per-tier timestamp order -/

/-- A queue is in timestamp order (the invariant `enqueue` maintains by
sorting). -/
def TsSorted (l : List QueuedRequest) : Prop :=
  l.Pairwise (fun a b => a.timestamp ≤ b.timestamp)

theorem mem_insertByTimestamp (x a : QueuedRequest) (l : List QueuedRequest) :
    a ∈ insertByTimestamp x l ↔ a = x ∨ a ∈ l := by
  induction l with
  | nil => simp [insertByTimestamp]
  | cons y ys ih =>
      by_cases h : x.timestamp < y.timestamp
      · simp [insertByTimestamp, h]
      · simp [insertByTimestamp, h, ih]
        tauto

theorem mem_foldl_insertByTimestamp (l acc : List QueuedRequest) (a : QueuedRequest) :
    a ∈ l.foldl (fun acc x => insertByTimestamp x acc) acc ↔ a ∈ acc ∨ a ∈ l := by
  induction l generalizing acc with
  | nil => simp
  | cons x xs ih =>
      simp [List.foldl_cons, ih, mem_insertByTimestamp]
      tauto

theorem mem_sortByTimestamp (l : List QueuedRequest) (a : QueuedRequest) :
    a ∈ sortByTimestamp l ↔ a ∈ l := by
  simp [sortByTimestamp, mem_foldl_insertByTimestamp]

theorem insertByTimestamp_of_forall_not_lt (x : QueuedRequest) (l : List QueuedRequest)
    (h : ∀ y ∈ l, ¬ x.timestamp < y.timestamp) :
    insertByTimestamp x l = l ++ [x] := by
  induction l with
  | nil => rfl
  | cons y ys ih =>
      have hy : ¬ x.timestamp < y.timestamp := h y (by simp)
      simp [insertByTimestamp, hy]
      exact ih (fun z hz => h z (by simp [hz]))

theorem tsSorted_insertByTimestamp (x : QueuedRequest) (l : List QueuedRequest)
    (h : TsSorted l) : TsSorted (insertByTimestamp x l) := by
  induction l with
  | nil => simp [insertByTimestamp, TsSorted]
  | cons y ys ih =>
      rw [TsSorted, List.pairwise_cons] at h
      by_cases hlt : x.timestamp < y.timestamp
      · rw [TsSorted, insertByTimestamp, if_pos hlt, List.pairwise_cons]
        refine ⟨?_, List.Pairwise.cons h.1 h.2⟩
        intro z hz
        rcases List.mem_cons.mp hz with hz | hz
        · exact le_of_lt (hz ▸ hlt)
        · exact le_trans (le_of_lt hlt) (h.1 z hz)
      · rw [TsSorted, insertByTimestamp, if_neg hlt, List.pairwise_cons]
        refine ⟨?_, ih h.2⟩
        intro z hz
        rcases (mem_insertByTimestamp x z ys).mp hz with hz | hz
        · exact hz ▸ le_of_not_lt hlt
        · exact h.1 z hz

theorem tsSorted_foldl_insertByTimestamp (l acc : List QueuedRequest) (h : TsSorted acc) :
    TsSorted (l.foldl (fun acc x => insertByTimestamp x acc) acc) := by
  induction l generalizing acc with
  | nil => exact h
  | cons x xs ih => exact ih _ (tsSorted_insertByTimestamp x acc h)

theorem tsSorted_sortByTimestamp (l : List QueuedRequest) : TsSorted (sortByTimestamp l) :=
  tsSorted_foldl_insertByTimestamp l [] (by simp [TsSorted])

theorem sortByTimestamp_append (l m : List QueuedRequest) :
    sortByTimestamp (l ++ m) = m.foldl (fun acc x => insertByTimestamp x acc) (sortByTimestamp l) := by
  simp [sortByTimestamp, List.foldl_append]

theorem sortByTimestamp_of_tsSorted (l : List QueuedRequest) (h : TsSorted l) :
    sortByTimestamp l = l := by
  induction l using List.reverseRecOn with
  | nil => rfl
  | append_singleton ys x ih =>
      rw [TsSorted, List.pairwise_append] at h
      rw [sortByTimestamp_append, List.foldl_cons, List.foldl_nil, ih h.1,
        insertByTimestamp_of_forall_not_lt]
      intro y hy
      exact not_lt_of_le (h.2.2 y hy x (by simp))

theorem sortByTimestamp_sortByTimestamp (l : List QueuedRequest) :
    sortByTimestamp (sortByTimestamp l) = sortByTimestamp l :=
  sortByTimestamp_of_tsSorted _ (tsSorted_sortByTimestamp l)

/-- Lemma: `enqueue` on a timestamp-sorted queue sorts the pushed element into place. -/
theorem sortByTimestamp_push_of_tsSorted (q : List QueuedRequest) (r : QueuedRequest)
    (h : TsSorted q) :
    sortByTimestamp (q ++ [r]) = insertByTimestamp r q := by
  rw [sortByTimestamp_append, List.foldl_cons, List.foldl_nil, sortByTimestamp_of_tsSorted q h]

/-- A sequence of `enqueue` calls; each call creates one fresh promise, so the
promise counter advances by one per call. -/
def runEnqueues (s : PQState) (pid : Nat) : List QueuedRequest → PQState
  | [] => s
  | r :: rs => runEnqueues (PriorityQueue.enqueue s r pid).1 (pid + 1) rs

/-- The requests as they sit in the queue after the `enqueue` calls: each has
its `resolve`/`reject` replaced by the promise created for it. -/
def attachPids (pid : Nat) : List QueuedRequest → List QueuedRequest
  | [] => []
  | r :: rs => { r with promiseId := pid } :: attachPids (pid + 1) rs

/-- Repeated `dequeue()` until it returns `null`, with explicit fuel. -/
def drainFuel : Nat → PQState → List QueuedRequest
  | 0, _ => []
  | n + 1, s =>
      match PriorityQueue.dequeue s with
      | (_, none) => []
      | (s', some r) => r :: drainFuel n s'

/-- The full sequence of requests handed out by repeated `dequeue()` calls. -/
def PriorityQueue.drain (s : PQState) : List QueuedRequest :=
  drainFuel (s.queues.map List.length).sum s

theorem dequeueFrom_none_flatten (qs : List (List QueuedRequest))
    (h : dequeueFrom qs = none) : qs.flatten = [] := by
  induction qs with
  | nil => rfl
  | cons q rest ih =>
      cases q with
      | nil =>
          simp only [dequeueFrom] at h
          cases hrec : dequeueFrom rest with
          | none => simp [ih hrec]
          | some v => rw [hrec] at h; cases h
      | cons x xs => simp [dequeueFrom] at h

theorem dequeueFrom_some_flatten (qs : List (List QueuedRequest)) (r : QueuedRequest)
    (qs' : List (List QueuedRequest)) (h : dequeueFrom qs = some (r, qs')) :
    qs.flatten = r :: qs'.flatten := by
  induction qs generalizing r qs' with
  | nil => simp [dequeueFrom] at h
  | cons q rest ih =>
      cases q with
      | nil =>
          simp only [dequeueFrom] at h
          cases hrec : dequeueFrom rest with
          | none => rw [hrec] at h; cases h
          | some v =>
              obtain ⟨r2, rest2⟩ := v
              have := ih r2 rest2 hrec
              rw [hrec] at h
              cases h
              simpa using this
      | cons x xs =>
          simp only [dequeueFrom] at h
          cases h
          simp

theorem drainFuel_eq_flatten (n : Nat) (s : PQState)
    (h : (s.queues.map List.length).sum ≤ n) : drainFuel n s = s.queues.flatten := by
  induction n generalizing s with
  | zero =>
      have hlen : s.queues.flatten.length = 0 := by
        rw [List.length_flatten]
        omega
      rw [List.eq_nil_of_length_eq_zero hlen]
      rfl
  | succ n ih =>
      rw [drainFuel]
      unfold PriorityQueue.dequeue
      cases hd : dequeueFrom s.queues with
      | none => exact (dequeueFrom_none_flatten _ hd).symm
      | some v =>
          obtain ⟨r, qs'⟩ := v
          have hspec := (dequeueFrom_spec s.queues).2 r qs' hd
          rw [dequeueFrom_some_flatten _ _ _ hd]
          simp only []
          congr 1
          exact ih _ (by simp only []; omega)

theorem drain_eq_flatten (s : PQState) : PriorityQueue.drain s = s.queues.flatten :=
  drainFuel_eq_flatten _ s (le_refl _)

theorem mem_of_mem_set {α : Type} (l : List α) (i : Nat) (v a : α)
    (h : a ∈ l.set i v) : a = v ∨ a ∈ l := by
  induction l generalizing i with
  | nil => simp [List.set] at h
  | cons x xs ih =>
      cases i with
      | zero =>
          rcases List.mem_cons.mp h with h | h
          · exact .inl h
          · exact .inr (List.mem_cons_of_mem x h)
      | succ n =>
          rcases List.mem_cons.mp h with h | h
          · exact .inr (h ▸ List.mem_cons_self x xs)
          · rcases ih n h with h | h
            · exact .inl h
            · exact .inr (List.mem_cons_of_mem x h)

/-- After a run of successful `enqueue` calls, each priority tier holds exactly
the requests of that priority (with their freshly attached promises) inserted in
timestamp order into the tier's previous contents. -/
theorem runEnqueues_queues_spec (reqs : List QueuedRequest) (pid : Nat) (s : PQState)
    (h5 : s.queues.length = 5)
    (hsorted : ∀ q ∈ s.queues, TsSorted q)
    (hsum : s.totalSize = ((s.queues.map List.length).sum : Int))
    (hcap : (s.queues.map List.length).sum + reqs.length ≤ s.maxSize)
    (hvalid : ∀ r ∈ reqs, r.priority < 5) :
    (runEnqueues s pid reqs).queues.length = 5 ∧
    ∀ p : Nat, ∀ q : List QueuedRequest, s.queues[p]? = some q →
      (runEnqueues s pid reqs).queues[p]? =
        some (((attachPids pid reqs).filter (fun r => r.priority == p)).foldl
          (fun acc x => insertByTimestamp x acc) q) := by
  induction reqs generalizing pid s with
  | nil =>
      refine ⟨h5, ?_⟩
      intro p q hq
      simp [runEnqueues, attachPids, hq]
  | cons r rs ih =>
      have hr5 : r.priority < 5 := hvalid r (by simp)
      have hcap2 : (s.queues.map List.length).sum + rs.length + 1 ≤ s.maxSize := by
        simp only [List.length_cons] at hcap
        omega
      have hfull : ¬ ((s.maxSize : Int) ≤ s.totalSize) := by
        rw [hsum]
        simp only [Nat.cast_le]
        omega
      have hrlen : r.priority < s.queues.length := by rw [h5]; exact hr5
      have hq0 : s.queues[r.priority]? = some (s.queues.get ⟨r.priority, hrlen⟩) :=
        List.getElem?_eq_getElem hrlen
      set q0 : List QueuedRequest := s.queues.get ⟨r.priority, hrlen⟩ with hq0def
      have hq0sorted : TsSorted q0 := hsorted q0 (List.getElem?_mem hq0)
      set r1 : QueuedRequest := { r with promiseId := pid } with hr1
      set newq : List QueuedRequest := sortByTimestamp (q0 ++ [r1]) with hnewq
      set s1 : PQState :=
        { s with queues := s.queues.set r.priority newq, totalSize := s.totalSize + 1 } with hs1
      have hs1queues : s1.queues = s.queues.set r.priority newq := rfl
      have hs1total : s1.totalSize = s.totalSize + 1 := rfl
      have hs1max : s1.maxSize = s.maxSize := rfl
      have hstep : (PriorityQueue.enqueue s r pid).1 = s1 := by
        rw [PriorityQueue.enqueue, if_neg hfull]
        simp only [hq0]
      have hrun : runEnqueues s pid (r :: rs) =
          runEnqueues (PriorityQueue.enqueue s r pid).1 (pid + 1) rs := rfl
      have hlen_newq : newq.length = q0.length + 1 := by
        rw [hnewq, length_sortByTimestamp, List.length_append, List.length_cons, List.length_nil]
      have hsum1 : ((s1.queues.map List.length).sum : Nat) =
          (s.queues.map List.length).sum + 1 := by
        have hset := sum_map_length_set s.queues r.priority q0 newq hq0
        rw [hlen_newq] at hset
        rw [hs1queues]
        omega
      have ihres := ih (pid + 1) s1
        (by rw [hs1queues]; simp [h5])
        (by
          intro q hq
          rw [hs1queues] at hq
          rcases mem_of_mem_set _ _ _ _ hq with h | h
          · rw [h, hnewq]
            exact tsSorted_sortByTimestamp _
          · exact hsorted q h)
        (by
          rw [hs1total, hsum]
          omega)
        (by rw [hsum1, hs1max]; omega)
        (fun x hx => hvalid x (by simp [hx]))
      rw [hrun, hstep]
      refine ⟨ihres.1, ?_⟩
      intro p q hq
      by_cases hp : p = r.priority
      · subst hp
        have hqq0 : q = q0 := by
          rw [hq0] at hq
          exact (Option.some.inj hq).symm
        subst hqq0
        have hs1q : s1.queues[r.priority]? = some newq := by
          rw [hs1queues]
          exact List.getElem?_set_eq_of_lt _ hrlen
        have hres := ihres.2 r.priority _ hs1q
        rw [hres]
        congr 1
        rw [hnewq, sortByTimestamp_push_of_tsSorted q0 r1 hq0sorted]
        have hfil : (attachPids pid (r :: rs)).filter (fun x => x.priority == r.priority) =
            r1 :: (attachPids (pid + 1) rs).filter (fun x => x.priority == r.priority) := by
          simp [attachPids, List.filter_cons, hr1]
        rw [hfil, List.foldl_cons]
      · have hs1q : s1.queues[p]? = some q := by
          rw [hs1queues]
          rw [List.getElem?_set_ne (fun h => hp h.symm)]
          exact hq
        have hres := ihres.2 p _ hs1q
        rw [hres]
        congr 1
        have hne : (r.priority == p) = false :=
          beq_eq_false_iff_ne.mpr (fun h => hp h.symm)
        have hfil : (attachPids pid (r :: rs)).filter (fun x => x.priority == p) =
            (attachPids (pid + 1) rs).filter (fun x => x.priority == p) := by
          simp [attachPids, List.filter_cons, hr1, hne]
        rw [hfil]

theorem list_ext5 {α : Type} (l : List α) (a0 a1 a2 a3 a4 : α)
    (h : l.length = 5)
    (h0 : l[0]? = some a0) (h1 : l[1]? = some a1) (h2 : l[2]? = some a2)
    (h3 : l[3]? = some a3) (h4 : l[4]? = some a4) :
    l = [a0, a1, a2, a3, a4] := by
  match l, h with
  | [b0, b1, b2, b3, b4], _ =>
      simp only [List.getElem?_cons_zero, List.getElem?_cons_succ, Option.some.injEq] at h0 h1 h2 h3 h4
      rw [h0, h1, h2, h3, h4]

/-- One output tier of a drained queue: the requests of priority `p`, with
promises attached, in stable timestamp order. -/
def tierOut (attached : List QueuedRequest) (p : Nat) : List QueuedRequest :=
  sortByTimestamp (attached.filter (fun r => r.priority == p))

theorem priority_of_mem_tierOut (attached : List QueuedRequest) (p : Nat)
    (x : QueuedRequest) (hx : x ∈ tierOut attached p) : x.priority = p := by
  rw [tierOut, mem_sortByTimestamp] at hx
  have := List.of_mem_filter hx
  simpa using this

theorem attachPids_priority_lt (reqs : List QueuedRequest) (n : Nat)
    (h : ∀ r ∈ reqs, r.priority < 5) :
    ∀ x ∈ attachPids n reqs, x.priority < 5 := by
  induction reqs generalizing n with
  | nil => intro x hx; simp [attachPids] at hx
  | cons r rs ih =>
      intro x hx
      rw [attachPids] at hx
      rcases List.mem_cons.mp hx with hx | hx
      · have : x.priority = r.priority := by rw [hx]
        rw [this]
        exact h r (by simp)
      · exact ih (n + 1) (fun y hy => h y (by simp [hy])) x hx

theorem pairwise_flatten_tiers (tiers : List (Nat × List QueuedRequest))
    (horder : tiers.Pairwise (fun a b => a.1 ≤ b.1))
    (hmem : ∀ t ∈ tiers, ∀ x ∈ t.2, x.priority = t.1) :
    ((tiers.map Prod.snd).flatten).Pairwise (fun a b => a.priority ≤ b.priority) := by
  induction tiers with
  | nil => simp
  | cons t rest ih =>
      rw [List.pairwise_cons] at horder
      simp only [List.map_cons, List.flatten_cons]
      rw [List.pairwise_append]
      refine ⟨?_, ih horder.2 (fun u hu => hmem u (by simp [hu])), ?_⟩
      · refine List.pairwise_of_forall_mem_list (fun a ha b hb => ?_)
        rw [hmem t (by simp) a ha, hmem t (by simp) b hb]
      · intro a ha b hb
        rcases List.mem_flatten.mp hb with ⟨l, hl, hbl⟩
        rcases List.mem_map.mp hl with ⟨u, hu, rfl⟩
        rw [hmem t (by simp) a ha, hmem u (by simp [hu]) b hbl]
        exact horder.1 u hu

theorem filter_tierOut (attached : List QueuedRequest) (p q : Nat) :
    (tierOut attached q).filter (fun r => r.priority == p) =
      if p = q then tierOut attached q else [] := by
  by_cases h : p = q
  · rw [if_pos h]
    refine List.filter_eq_self.mpr (fun a ha => ?_)
    have := priority_of_mem_tierOut attached q a ha
    simp [this, h]
  · rw [if_neg h]
    refine List.filter_eq_nil_iff.mpr (fun a ha => ?_)
    have := priority_of_mem_tierOut attached q a ha
    simp [this]
    exact fun hqp => h hqp.symm

theorem tierOut_of_ge_5 (attached : List QueuedRequest) (p : Nat)
    (hlt : ∀ x ∈ attached, x.priority < 5) (hp : 5 ≤ p) :
    tierOut attached p = [] := by
  rw [tierOut]
  have : attached.filter (fun r => r.priority == p) = [] := by
    refine List.filter_eq_nil_iff.mpr (fun a ha => ?_)
    have := hlt a ha
    simp
    omega
  rw [this]
  rfl

/-- Claim C1: for every sequence of successful `PriorityQueue.enqueue` calls
followed by `dequeue` calls: (1) the dequeued sequence is ordered by ascending
numeric priority, so for all priorities `p1 < p2` every `p1` item is returned
before any `p2` item, regardless of the items' ages; (2) the items of each
priority are returned as the stable timestamp sort of that tier, i.e. each
`dequeue` yields the oldest (by `timestamp`) entry of the first non-empty tier
with first-scheduled-first tie-break; (3) in particular, when the timestamps of
a tier's items do not decrease along the enqueue order, that tier is returned
exactly in enqueue order. -/
theorem dequeue_strict_priority_fifo (maxSize : Nat) (reqs : List QueuedRequest)
    (hvalid : ∀ r ∈ reqs, r.priority < 5)
    (hcap : reqs.length ≤ maxSize) :
    (PriorityQueue.drain (runEnqueues (PriorityQueue.init maxSize) 0 reqs)).Pairwise
        (fun a b => a.priority ≤ b.priority) ∧
    (∀ p : Nat,
      (PriorityQueue.drain (runEnqueues (PriorityQueue.init maxSize) 0 reqs)).filter
          (fun r => r.priority == p) = tierOut (attachPids 0 reqs) p) ∧
    (∀ p : Nat, TsSorted ((attachPids 0 reqs).filter (fun r => r.priority == p)) →
      (PriorityQueue.drain (runEnqueues (PriorityQueue.init maxSize) 0 reqs)).filter
          (fun r => r.priority == p) = (attachPids 0 reqs).filter (fun r => r.priority == p)) := by
  have hinitq : (PriorityQueue.init maxSize).queues = [[], [], [], [], []] := rfl
  have hspec := runEnqueues_queues_spec reqs 0 (PriorityQueue.init maxSize)
    (by rw [hinitq]; rfl)
    (by
      intro q hq
      rw [hinitq] at hq
      have : q = [] := by simpa using hq
      rw [this]
      exact List.Pairwise.nil)
    (by rfl)
    (by rw [hinitq]; simpa using hcap)
    hvalid
  have h0 : (runEnqueues (PriorityQueue.init maxSize) 0 reqs).queues[0]? =
      some (tierOut (attachPids 0 reqs) 0) := hspec.2 0 [] (by rw [hinitq]; rfl)
  have h1 : (runEnqueues (PriorityQueue.init maxSize) 0 reqs).queues[1]? =
      some (tierOut (attachPids 0 reqs) 1) := hspec.2 1 [] (by rw [hinitq]; rfl)
  have h2 : (runEnqueues (PriorityQueue.init maxSize) 0 reqs).queues[2]? =
      some (tierOut (attachPids 0 reqs) 2) := hspec.2 2 [] (by rw [hinitq]; rfl)
  have h3 : (runEnqueues (PriorityQueue.init maxSize) 0 reqs).queues[3]? =
      some (tierOut (attachPids 0 reqs) 3) := hspec.2 3 [] (by rw [hinitq]; rfl)
  have h4 : (runEnqueues (PriorityQueue.init maxSize) 0 reqs).queues[4]? =
      some (tierOut (attachPids 0 reqs) 4) := hspec.2 4 [] (by rw [hinitq]; rfl)
  have hqueues : (runEnqueues (PriorityQueue.init maxSize) 0 reqs).queues =
      [tierOut (attachPids 0 reqs) 0, tierOut (attachPids 0 reqs) 1,
       tierOut (attachPids 0 reqs) 2, tierOut (attachPids 0 reqs) 3,
       tierOut (attachPids 0 reqs) 4] :=
    list_ext5 _ _ _ _ _ _ hspec.1 h0 h1 h2 h3 h4
  have hout : PriorityQueue.drain (runEnqueues (PriorityQueue.init maxSize) 0 reqs) =
      tierOut (attachPids 0 reqs) 0 ++ (tierOut (attachPids 0 reqs) 1 ++
        (tierOut (attachPids 0 reqs) 2 ++ (tierOut (attachPids 0 reqs) 3 ++
          (tierOut (attachPids 0 reqs) 4 ++ [])))) := by
    rw [drain_eq_flatten, hqueues]
    rfl
  have hattached : ∀ x ∈ attachPids 0 reqs, x.priority < 5 :=
    attachPids_priority_lt reqs 0 hvalid
  have hconj2 : ∀ p : Nat,
      (PriorityQueue.drain (runEnqueues (PriorityQueue.init maxSize) 0 reqs)).filter
          (fun r => r.priority == p) = tierOut (attachPids 0 reqs) p := by
    intro p
    rw [hout]
    rw [List.filter_append, List.filter_append, List.filter_append,
      List.filter_append, List.filter_append]
    rw [filter_tierOut, filter_tierOut, filter_tierOut, filter_tierOut, filter_tierOut]
    by_cases hp5 : p < 5
    · interval_cases p <;> simp
    · rw [if_neg (by omega), if_neg (by omega), if_neg (by omega),
        if_neg (by omega), if_neg (by omega)]
      rw [tierOut_of_ge_5 _ p hattached (by omega)]
      simp
  refine ⟨?_, hconj2, ?_⟩
  · rw [hout]
    have hpw := pairwise_flatten_tiers
      [(0, tierOut (attachPids 0 reqs) 0), (1, tierOut (attachPids 0 reqs) 1),
       (2, tierOut (attachPids 0 reqs) 2), (3, tierOut (attachPids 0 reqs) 3),
       (4, tierOut (attachPids 0 reqs) 4)]
      (by simp [List.pairwise_cons])
      (by
        intro t ht x hx
        simp only [List.mem_cons, List.not_mem_nil, or_false] at ht
        rcases ht with rfl | rfl | rfl | rfl | rfl <;>
          exact priority_of_mem_tierOut _ _ _ hx)
    simpa using hpw
  · intro p hts
    rw [hconj2 p, tierOut, sortByTimestamp_of_tsSorted _ hts]

/-- Witness for claim C1: a NORMAL request enqueued before a CRITICAL one is
nevertheless dequeued after it. -/
theorem dequeue_strict_priority_fifo_witness :
    (∀ r ∈ [sampleReq, sampleReq2], r.priority < 5) ∧
    ([sampleReq, sampleReq2] : List QueuedRequest).length ≤ 10 ∧
    (PriorityQueue.drain (runEnqueues (PriorityQueue.init 10) 0 [sampleReq, sampleReq2])).Pairwise
        (fun a b => a.priority ≤ b.priority) :=
  ⟨by decide, by decide,
    (dequeue_strict_priority_fifo 10 [sampleReq, sampleReq2] (by decide) (by decide)).1⟩

/-! ### C5: settlement of caller promises by the queue-drain loop -/

/-- The parts of `DiscordRateLimitMiddleware` state that the queue-drain loop
(`processQueue`) touches: the queue, the promise-id counter, and the log of
promise settlements (`(id, true)` for a `resolve` call, `(id, false)` for a
`reject` call). -/
structure LoopState where
  queue : PQState
  nextPid : Nat
  settled : List (Nat × Bool)
deriving Repr, DecidableEq

/-- A rate-limited caller entering `execute`: the middleware returns
`this.queue.enqueue(request)`, so the caller ends up awaiting the promise that
this `enqueue` call creates.  Returns the new state and the id of the promise
handed to the caller. -/
def DiscordRateLimitMiddleware.callerEnqueue (st : LoopState) (r : QueuedRequest) :
    LoopState × Nat :=
  let (q', outcome) := PriorityQueue.enqueue st.queue r st.nextPid
  match outcome with
  | .queued => ({ st with queue := q', nextPid := st.nextPid + 1 }, st.nextPid)
  | .rejectedFull =>
      ({ st with queue := q', nextPid := st.nextPid + 1,
                 settled := st.settled ++ [(st.nextPid, false)] }, st.nextPid)
  | .rejectedInvalid =>
      ({ st with queue := q', nextPid := st.nextPid + 1,
                 settled := st.settled ++ [(st.nextPid, false)] }, st.nextPid)

/-- One iteration of `DiscordRateLimitMiddleware.processQueue`: `dequeue()`; if
nothing is queued, wait; if the dequeued request is still blocked
(`canExecuteRequest` false), re-enqueue it through `this.queue.enqueue(request)`
— which creates a fresh promise, overwrites the request's `resolve`/`reject`
with that promise's handlers, and whose returned promise is discarded; otherwise
dispatch `executeRequest(request).then(request.resolve).catch(request.reject)`,
which settles the promise the request's handles currently point to (`execOk`
selects the `then` or `catch` branch). -/
def DiscordRateLimitMiddleware.processQueueStep (canExecute : QueuedRequest → Bool)
    (execOk : Bool) (st : LoopState) : LoopState :=
  match PriorityQueue.dequeue st.queue with
  | (_, none) => st
  | (q1, some r) =>
      if canExecute r then
        { st with queue := q1, settled := st.settled ++ [(r.promiseId, execOk)] }
      else
        let (q2, outcome) := PriorityQueue.enqueue q1 r st.nextPid
        match outcome with
        | .queued => { st with queue := q2, nextPid := st.nextPid + 1 }
        | .rejectedFull =>
            { st with queue := q2, nextPid := st.nextPid + 1,
                      settled := st.settled ++ [(st.nextPid, false)] }
        | .rejectedInvalid =>
            { st with queue := q2, nextPid := st.nextPid + 1,
                      settled := st.settled ++ [(st.nextPid, false)] }

/-- Claim C5, failing run: the queue-drain loop drops a caller's promise.  A
rate-limited request is enqueued (the caller receives promise 0); the loop
dequeues it while it is still blocked and re-enqueues it, which attaches fresh
promise 1 to it and discards that promise; the loop then dequeues it again,
executes it successfully, and resolves promise 1.  At that point the queue is
empty, no work is pending, the only promise ever settled is promise 1, and the
caller's promise 0 is never resolved or rejected — contradicting the claim that
every promise handed to a caller for a queued request eventually settles. -/
theorem processQueue_reenqueue_drops_caller_promise :
    (DiscordRateLimitMiddleware.processQueueStep (fun _ => true) true
      (DiscordRateLimitMiddleware.processQueueStep (fun _ => false) true
        (DiscordRateLimitMiddleware.callerEnqueue
          ⟨PriorityQueue.init 10, 0, []⟩ sampleReq).1)).queue.totalSize = 0 ∧
    (DiscordRateLimitMiddleware.callerEnqueue
      ⟨PriorityQueue.init 10, 0, []⟩ sampleReq).2 = 0 ∧
    (DiscordRateLimitMiddleware.processQueueStep (fun _ => true) true
      (DiscordRateLimitMiddleware.processQueueStep (fun _ => false) true
        (DiscordRateLimitMiddleware.callerEnqueue
          ⟨PriorityQueue.init 10, 0, []⟩ sampleReq).1)).settled = [(1, true)] ∧
    ∀ e ∈ (DiscordRateLimitMiddleware.processQueueStep (fun _ => true) true
      (DiscordRateLimitMiddleware.processQueueStep (fun _ => false) true
        (DiscordRateLimitMiddleware.callerEnqueue
          ⟨PriorityQueue.init 10, 0, []⟩ sampleReq).1)).settled,
      e.1 ≠ (DiscordRateLimitMiddleware.callerEnqueue
        ⟨PriorityQueue.init 10, 0, []⟩ sampleReq).2 := by
  decide

/-! ### The rate-limit store (`store.ts`), bucket manager and orchestrator -/

/-- Embeds `RateLimitInfo` from `types.ts` (the optional `bucket` is `none` for a
missing or empty header, both falsy in the source). -/
structure RateLimitInfo where
  limit : Nat
  remaining : Int
  resetAfter : Nat
  maxRetries : Nat
  retryAfter : Nat
  global : Bool
  bucket : Option String
deriving Repr, DecidableEq

/-- Embeds `RateLimitBucket` from `types.ts`.  `remaining` is an `Int` because the
JavaScript number could in principle be driven negative; nonnegativity is a
property to prove, not an assumption.  The attached `requests` list is kept. -/
structure RateLimitBucket where
  id : String
  limit : Nat
  remaining : Int
  resetAt : Nat
  resetAfter : Nat
  maxRetries : Nat
  lastUsed : Nat
  requests : List QueuedRequest
deriving Repr, DecidableEq

/-- Embeds `RateLimitMetrics` from `types.ts`. -/
structure RateLimitMetrics where
  totalRequests : Nat
  successfulRequests : Nat
  rateLimitedRequests : Nat
  failedRequests : Nat
  averageResponseTime : Nat
  bucketCount : Nat
  queueSize : Nat
  globalRateLimits : Nat
  lastReset : Nat
deriving Repr, DecidableEq

/-- The metrics record the `MemoryRateLimitStore` constructor (and
`resetMetrics`) builds, with `bucketCount` taken from the current map size. -/
def RateLimitMetrics.fresh (now bucketCount : Nat) : RateLimitMetrics :=
  { totalRequests := 0, successfulRequests := 0, rateLimitedRequests := 0,
    failedRequests := 0, averageResponseTime := 0, bucketCount := bucketCount,
    queueSize := 0, globalRateLimits := 0, lastReset := now }

/-- State of a `MemoryRateLimitStore`: the `buckets` JavaScript `Map` is an
association list in insertion order (`Map.set` of an existing key replaces in
place, `Map.delete` removes the entry), plus the global limit and metrics. -/
structure StoreState where
  buckets : List (String × RateLimitBucket)
  globalLimit : Option RateLimitInfo
  metrics : RateLimitMetrics
deriving Repr, DecidableEq

/-- Embeds `new MemoryRateLimitStore()` at time `now`. -/
def StoreState.empty (now : Nat) : StoreState :=
  { buckets := [], globalLimit := none, metrics := RateLimitMetrics.fresh now 0 }

/-- Embeds `Map.get`. -/
def lookupAssoc (l : List (String × RateLimitBucket)) (k : String) :
    Option RateLimitBucket :=
  match l with
  | [] => none
  | (k', v) :: rest => if k' = k then some v else lookupAssoc rest k

/-- Embeds `Map.set`: replace in place if the key exists, append otherwise. -/
def setAssoc (l : List (String × RateLimitBucket)) (k : String) (v : RateLimitBucket) :
    List (String × RateLimitBucket) :=
  match l with
  | [] => [(k, v)]
  | (k', v') :: rest => if k' = k then (k, v) :: rest else (k', v') :: setAssoc rest k v

/-- Embeds `Map.delete`: remove the entry with the key, if present. -/
def eraseAssoc (l : List (String × RateLimitBucket)) (k : String) :
    List (String × RateLimitBucket) :=
  match l with
  | [] => []
  | (k', v') :: rest => if k' = k then rest else (k', v') :: eraseAssoc rest k

/-- Embeds `MemoryRateLimitStore.getBucket`: a missing bucket is `null`; a bucket past
its `resetAt` (`Date.now() > bucket.resetAt`) is deleted from the map and
reported as `null`.  Note the lazy delete does not touch `metrics.bucketCount`. -/
def MemoryRateLimitStore.getBucket (st : StoreState) (now : Nat) (bucketId : String) :
    Option RateLimitBucket × StoreState :=
  match lookupAssoc st.buckets bucketId with
  | none => (none, st)
  | some bucket =>
      if bucket.resetAt < now then
        (none, { st with buckets := eraseAssoc st.buckets bucketId })
      else
        (some bucket, st)

/-- Embeds `MemoryRateLimitStore.setBucket`: stamps `lastUsed`, stores the bucket, and
refreshes `metrics.bucketCount` from the map size. -/
def MemoryRateLimitStore.setBucket (st : StoreState) (now : Nat) (bucketId : String)
    (bucket : RateLimitBucket) : StoreState :=
  let buckets' := setAssoc st.buckets bucketId { bucket with lastUsed := now }
  { st with buckets := buckets',
            metrics := { st.metrics with bucketCount := buckets'.length } }

/-- Embeds `MemoryRateLimitStore.deleteBucket`. -/
def MemoryRateLimitStore.deleteBucket (st : StoreState) (bucketId : String) : StoreState :=
  let buckets' := eraseAssoc st.buckets bucketId
  { st with buckets := buckets',
            metrics := { st.metrics with bucketCount := buckets'.length } }

/-- Embeds `MemoryRateLimitStore.getGlobalLimit`: expired (`Date.now() > resetAfter`,
the field holding an absolute deadline once stored) clears it and returns
`null`. -/
def MemoryRateLimitStore.getGlobalLimit (st : StoreState) (now : Nat) :
    Option RateLimitInfo × StoreState :=
  match st.globalLimit with
  | none => (none, st)
  | some g =>
      if g.resetAfter < now then (none, { st with globalLimit := none })
      else (some g, st)

/-- Embeds `MemoryRateLimitStore.setGlobalLimit`: stores the info with `resetAfter`
converted to the absolute deadline `Date.now() + limit.resetAfter`, counting a
global rate limit. -/
def MemoryRateLimitStore.setGlobalLimit (st : StoreState) (now : Nat)
    (limit : RateLimitInfo) : StoreState :=
  { st with globalLimit := some { limit with resetAfter := now + limit.resetAfter },
            metrics := { st.metrics with
                         globalRateLimits := st.metrics.globalRateLimits + 1 } }

/-- Embeds `MemoryRateLimitStore.incrementMetric` for the `totalRequests` counter. -/
def MemoryRateLimitStore.bumpTotalRequests (st : StoreState) : StoreState :=
  { st with metrics := { st.metrics with totalRequests := st.metrics.totalRequests + 1 } }

/-- The JSON document produced by `MemoryRateLimitStore.exportState` (shallow
copies of buckets, global limit and metrics). -/
structure ExportedState where
  buckets : List (String × RateLimitBucket)
  globalLimit : Option RateLimitInfo
  metrics : RateLimitMetrics
deriving Repr, DecidableEq

/-- Embeds `MemoryRateLimitStore.exportState`. -/
def MemoryRateLimitStore.exportState (st : StoreState) : ExportedState :=
  { buckets := st.buckets, globalLimit := st.globalLimit, metrics := st.metrics }

/-- Embeds `MemoryRateLimitStore.importState`: clears the map, inserts every exported
bucket, adopts the exported global limit and metrics, then overwrites
`metrics.bucketCount` with the imported map size. -/
def MemoryRateLimitStore.importState (state : ExportedState) : StoreState :=
  { buckets := state.buckets, globalLimit := state.globalLimit,
    metrics := { state.metrics with bucketCount := state.buckets.length } }

/-- Embeds `MemoryRateLimitStore.destroy`: stop the sweep, clear the map, drop the
global limit and reset the metrics. -/
def MemoryRateLimitStore.destroy (_st : StoreState) (now : Nat) : StoreState :=
  { buckets := [], globalLimit := none, metrics := RateLimitMetrics.fresh now 0 }

/-- Modelled from the spec: `bucketManager.ts` is absent from the source tree
(only its tests, README and callers are present).  Spec §4.3 gives
`getBucket(id, defaultLimit?, defaultResetAfter?)` as create-or-fetch: a bucket
is "created lazily on first reference with a default limit/window" (the default
limit is 5 and the default window 5000 ms, per `config.ts` and
`bucketManager.test.ts`), stored with full `remaining` and
`resetAt = now + resetAfter`. -/
def BucketManager.getBucket (st : StoreState) (now : Nat) (bucketId : String)
    (defaultLimit defaultResetAfter : Nat) : RateLimitBucket × StoreState :=
  let res := MemoryRateLimitStore.getBucket st now bucketId
  match res.1 with
  | some bucket => (bucket, res.2)
  | none =>
      let fresh : RateLimitBucket :=
        { id := bucketId, limit := defaultLimit, remaining := (defaultLimit : Int),
          resetAt := now + defaultResetAfter, resetAfter := defaultResetAfter,
          maxRetries := 3, lastUsed := now, requests := [] }
      (fresh, MemoryRateLimitStore.setBucket res.2 now bucketId fresh)

/-- Modelled from the spec: `bucketManager.ts` is absent from the source tree.
Spec §4.3: "`consumeRequest` atomically decrements `remaining` by one and
returns `false` without mutating state if no tokens remain (no negative
remaining)"; per `bucketManager.test.ts` the bucket is create-or-fetched with
the defaults, so a fresh bucket has `remaining = 4` after one consume. -/
def BucketManager.consumeRequest (st : StoreState) (now : Nat) (bucketId : String) :
    Bool × StoreState :=
  let res := BucketManager.getBucket st now bucketId 5 5000
  if 0 < res.1.remaining then
    (true, MemoryRateLimitStore.setBucket res.2 now bucketId
      { res.1 with remaining := res.1.remaining - 1 })
  else
    (false, res.2)

/-- Modelled from the spec: the per-bucket half of `BucketManager.isRateLimited`
(spec §4.3): the named bucket blocks execution when it exists, its `remaining`
is exhausted and its `resetAt` is in the future. -/
def BucketManager.isBucketLimited (st : StoreState) (now : Nat) (bucketId : String) :
    Bool × StoreState :=
  let res := MemoryRateLimitStore.getBucket st now bucketId
  match res.1 with
  | none => (false, res.2)
  | some bucket => (decide (bucket.remaining ≤ 0 ∧ now < bucket.resetAt), res.2)

/-- Modelled from the spec: `bucketManager.ts` is absent from the source tree.
Spec §4.3: "`isRateLimited` first checks the global limit (blocks everything if
active and unexpired), then the named bucket's `remaining <= 0` with `resetAt`
in the future"; per `bucketManager.test.ts` a missing bucket is not limited. -/
def BucketManager.isRateLimited (st : StoreState) (now : Nat) (bucketId : String) :
    Bool × StoreState :=
  let res := MemoryRateLimitStore.getGlobalLimit st now
  match res.1 with
  | some gl =>
      if now < gl.resetAfter then (true, res.2)
      else BucketManager.isBucketLimited res.2 now bucketId
  | none => BucketManager.isBucketLimited res.2 now bucketId

/-- Modelled from the spec: `bucketManager.ts` is absent from the source tree.
Spec §4.3: `handleRateLimit` "is the server-truth ingestion point: if
`info.global` is set, it writes the Store's global limit; otherwise it
writes/merges the named bucket's `limit`/`remaining`/`resetAfter` from the
server's authoritative numbers". -/
def BucketManager.handleRateLimit (st : StoreState) (now : Nat) (bucketId : String)
    (info : RateLimitInfo) : StoreState :=
  if info.global then
    MemoryRateLimitStore.setGlobalLimit st now info
  else
    let res := BucketManager.getBucket st now bucketId info.limit info.resetAfter
    MemoryRateLimitStore.setBucket res.2 now bucketId
      { res.1 with limit := info.limit, remaining := info.remaining,
                   resetAt := now + info.resetAfter, resetAfter := info.resetAfter }

/-- Embeds `DiscordRateLimitMiddleware.isRateLimited` (`middleware.ts`): the global
limit is consulted first — while `now < globalLimit.resetAfter` every bucket id
is limited — and only then the bucket-specific check runs. -/
def DiscordRateLimitMiddleware.isRateLimited (st : StoreState) (now : Nat)
    (bucketId : String) : Bool × StoreState :=
  let res := MemoryRateLimitStore.getGlobalLimit st now
  match res.1 with
  | some gl =>
      if now < gl.resetAfter then (true, res.2)
      else BucketManager.isRateLimited res.2 now bucketId
  | none => BucketManager.isRateLimited res.2 now bucketId

/-! ### The orchestrator (`orchestrator.ts`) -/

/-- JavaScript `String.prototype.startsWith`. -/
def strStartsWith (s pat : String) : Bool :=
  pat.isPrefixOf s

/-- Whether `pat` occurs as a contiguous run inside `s` (JavaScript
`String.prototype.includes`), character-list based. -/
def charsInside (pat : List Char) : List Char → Bool
  | [] => pat.isEmpty
  | c :: rest => pat.isPrefixOf (c :: rest) || charsInside pat rest

/-- JavaScript `String.prototype.includes`. -/
def strIncludes (s pat : String) : Bool :=
  charsInside pat.toList s.toList

/-- The `defaultLimit` of `getRateLimitConfig(endpoint)` (`config.ts`):
`ENDPOINT_RATE_LIMITS[endpoint]` merged over `DEFAULT_RATE_LIMIT_CONFIG`
(default limit 5). -/
def endpointDefaultLimit (endpoint : String) : Nat :=
  if endpoint = "POST/channels/:channel_id/messages" then 5
  else if endpoint = "DELETE/channels/:channel_id/messages/:message_id" then 5
  else if endpoint = "POST/guilds/:guild_id/bans/:user_id" then 5
  else if endpoint = "POST/channels/:channel_id/typing" then 5
  else if endpoint = "GET/gateway/bot" then 1
  else if endpoint = "POST/interactions/:interaction_id/:interaction_token/callback" then 1
  else if endpoint = "POST/channels/:channel_id/messages/bulk-delete" then 1
  else if endpoint = "GET/guilds/:guild_id/audit-logs" then 10
  else 5

/-- Embeds `DiscordRateLimitOrchestrator.getPriorityFromEndpoint` (`orchestrator.ts`). -/
def getPriorityFromEndpoint (url : String) : Nat :=
  if strIncludes url "/interactions/" && strIncludes url "/callback" then 0
  else if strIncludes url "/typing" || strStartsWith url "DELETE/" then 1
  else if strStartsWith url "POST/" || strStartsWith url "PUT/" then 2
  else if strStartsWith url "GET/" && strIncludes url "/audit-logs" then 3
  else if strIncludes url "/bulk-" then 4
  else if 5 < endpointDefaultLimit url then 1 else 2

/-- State of a `DiscordRateLimitOrchestrator` and the components it owns: the
store, the middleware's priority queue and processing flag, the orchestrator's
cleanup interval handle (`cleanupActive`), the shutdown flag, the promise
counter and the settlement log. -/
structure OrchState where
  store : StoreState
  queue : PQState
  isShutdown : Bool
  cleanupActive : Bool
  processing : Bool
  nextPid : Nat
  settled : List (Nat × Bool)
deriving Repr, DecidableEq

/-- `new DiscordRateLimitOrchestrator(...)` at time `now`: fresh store, a
middleware whose queue has the default `maxQueueSize` of 1000 and whose
processor is started, and a running cleanup interval. -/
def DiscordRateLimitOrchestrator.init (now : Nat) : OrchState :=
  { store := StoreState.empty now, queue := PriorityQueue.init 1000,
    isShutdown := false, cleanupActive := true, processing := true,
    nextPid := 0, settled := [] }

/-- The errors `DiscordRateLimitOrchestrator.enqueue` can surface immediately:
the synchronous shutdown throw, and the queue-full / invalid-priority
rejections of `PriorityQueue.enqueue`. -/
inductive EnqueueError
  | shutdownError
  | queueFull
  | invalidPriority
deriving Repr, DecidableEq

/-- How an `enqueue` call that surfaced no immediate error left the request:
dispatched to the transport right away, or parked in the priority queue with
the given promise. -/
inductive EnqueueDisposition
  | executedNow
  | queuedAt (pid : Nat)
deriving Repr, DecidableEq

/-- The priority `DiscordRateLimitOrchestrator.enqueue` runs a request under:
`if (!request.priority)` — priority `0` is falsy in JavaScript — the URL
heuristic supplies it. -/
def DiscordRateLimitOrchestrator.effectivePriority (r : QueuedRequest) : Nat :=
  if r.priority = 0 then getPriorityFromEndpoint r.url else r.priority

/-- Embeds `DiscordRateLimitMiddleware.execute` (`middleware.ts`), up to the dispatch
of the transport call: resolve the bucket id (the URL-pattern fallback is the
caller-supplied pure function `resolveBucket`), consult `isRateLimited`, queue
when limited, otherwise try `consumeRequest` and queue when exhausted,
otherwise dispatch immediately; the `finally` block counts the request.
Rejections of the promise returned by `queue.enqueue` surface to the caller as
the corresponding error.  `resolveBucketId` is `extractBucketIdFromRequest`:
an already-resolved `bucketId` is reused, otherwise the URL-pattern heuristic
(the caller-supplied pure `resolveBucket`) derives one. -/
def resolveBucketId (r : QueuedRequest) (resolveBucket : String → String → String) :
    String :=
  match r.bucketId with
  | some b => b
  | none => resolveBucket r.url r.method

/-- Embeds `DiscordRateLimitMiddleware.execute`, see the comment above
`resolveBucketId`. -/
def DiscordRateLimitMiddleware.execute (s : OrchState) (now : Nat) (r : QueuedRequest)
    (resolveBucket : String → String → String) :
    OrchState × Except EnqueueError EnqueueDisposition :=
  let bucketId := resolveBucketId r resolveBucket
  let r1 := { r with bucketId := some bucketId }
  let lim := DiscordRateLimitMiddleware.isRateLimited s.store now bucketId
  let store1 := lim.2
  if lim.1 then
    let enq := PriorityQueue.enqueue s.queue r1 s.nextPid
    let q' := enq.1
    match enq.2 with
    | .queued =>
        ({ s with store := MemoryRateLimitStore.bumpTotalRequests store1, queue := q',
                  nextPid := s.nextPid + 1 }, .ok (.queuedAt s.nextPid))
    | .rejectedFull =>
        ({ s with store := MemoryRateLimitStore.bumpTotalRequests store1, queue := q',
                  nextPid := s.nextPid + 1,
                  settled := s.settled ++ [(s.nextPid, false)] }, .error .queueFull)
    | .rejectedInvalid =>
        ({ s with store := MemoryRateLimitStore.bumpTotalRequests store1, queue := q',
                  nextPid := s.nextPid + 1,
                  settled := s.settled ++ [(s.nextPid, false)] }, .error .invalidPriority)
  else
    let cons := BucketManager.consumeRequest store1 now bucketId
    let store2 := cons.2
    if cons.1 then
      ({ s with store := MemoryRateLimitStore.bumpTotalRequests store2 }, .ok .executedNow)
    else
      let enq := PriorityQueue.enqueue s.queue r1 s.nextPid
      let q' := enq.1
      match enq.2 with
      | .queued =>
          ({ s with store := MemoryRateLimitStore.bumpTotalRequests store2, queue := q',
                    nextPid := s.nextPid + 1 }, .ok (.queuedAt s.nextPid))
      | .rejectedFull =>
          ({ s with store := MemoryRateLimitStore.bumpTotalRequests store2, queue := q',
                    nextPid := s.nextPid + 1,
                    settled := s.settled ++ [(s.nextPid, false)] }, .error .queueFull)
      | .rejectedInvalid =>
          ({ s with store := MemoryRateLimitStore.bumpTotalRequests store2, queue := q',
                    nextPid := s.nextPid + 1,
                    settled := s.settled ++ [(s.nextPid, false)] }, .error .invalidPriority)

/-- The default filling `DiscordRateLimitOrchestrator.enqueue` performs on a
request before handing it to the middleware: a falsy (`0`) priority is replaced
by the URL heuristic, a falsy `maxRetries` by 3, a falsy `timeout` by
30000 ms. -/
def DiscordRateLimitOrchestrator.withDefaults (r : QueuedRequest) : QueuedRequest :=
  let r1 := { r with priority := DiscordRateLimitOrchestrator.effectivePriority r }
  let r2 := if r1.maxRetries = 0 then { r1 with maxRetries := 3 } else r1
  if r2.timeout = 0 then { r2 with timeout := 30000 } else r2

/-- Embeds `DiscordRateLimitOrchestrator.enqueue` (`orchestrator.ts`): throws the
shutdown error when the orchestrator is shut down; otherwise fills in the
default priority (for a falsy priority, from the URL heuristic), `maxRetries`
(default 3) and `timeout` (default 30000 ms), and hands the request to
`middleware.execute`. -/
def DiscordRateLimitOrchestrator.enqueue (s : OrchState) (now : Nat) (r : QueuedRequest)
    (resolveBucket : String → String → String) :
    OrchState × Except EnqueueError EnqueueDisposition :=
  if s.isShutdown then
    (s, .error .shutdownError)
  else
    DiscordRateLimitMiddleware.execute s now
      (DiscordRateLimitOrchestrator.withDefaults r) resolveBucket

/-- Embeds `DiscordRateLimitOrchestrator.handleRateLimit` (`orchestrator.ts`): a no-op
after shutdown; a global info is stored as the store's global limit (absolute
deadline `now + resetAfter`); otherwise a truthy `bucket` id is handed to the
bucket manager. -/
def DiscordRateLimitOrchestrator.handleRateLimit (s : OrchState) (now : Nat)
    (info : RateLimitInfo) : OrchState :=
  if s.isShutdown then s
  else if info.global then
    { s with store := MemoryRateLimitStore.setGlobalLimit s.store now info }
  else
    match info.bucket with
    | some b => { s with store := BucketManager.handleRateLimit s.store now b info }
    | none => s

/-- Embeds `DiscordRateLimitOrchestrator.shutdown` (`orchestrator.ts`): returns at
once when already shut down; otherwise sets the flag, stops the cleanup
interval, stops the middleware loop, clears the queue (rejecting everything
still pending) and destroys the store. -/
def DiscordRateLimitOrchestrator.shutdown (s : OrchState) (now : Nat) : OrchState :=
  if s.isShutdown then s
  else
    let cleared := PriorityQueue.clear s.queue
    { s with isShutdown := true, cleanupActive := false, processing := false,
             queue := cleared.1,
             settled := s.settled ++ cleared.2.map (fun r => (r.promiseId, false)),
             store := MemoryRateLimitStore.destroy s.store now }

/-! ### C2 and C4: bucket consumption and lazy expiry -/

theorem mem_setAssoc (l : List (String × RateLimitBucket)) (k : String)
    (v : RateLimitBucket) (kv : String × RateLimitBucket)
    (h : kv ∈ setAssoc l k v) : kv = (k, v) ∨ kv ∈ l := by
  induction l with
  | nil =>
      rw [setAssoc] at h
      exact .inl (by simpa using h)
  | cons p rest ih =>
      rw [setAssoc] at h
      by_cases hk : p.1 = k
      · rw [if_pos hk] at h
        rcases List.mem_cons.mp h with h | h
        · exact .inl h
        · exact .inr (List.mem_cons_of_mem p h)
      · rw [if_neg hk] at h
        rcases List.mem_cons.mp h with h | h
        · exact .inr (h ▸ List.mem_cons_self p rest)
        · rcases ih h with h | h
          · exact .inl h
          · exact .inr (List.mem_cons_of_mem p h)

theorem mem_eraseAssoc (l : List (String × RateLimitBucket)) (k : String)
    (kv : String × RateLimitBucket) (h : kv ∈ eraseAssoc l k) : kv ∈ l := by
  induction l with
  | nil => rw [eraseAssoc] at h; exact h
  | cons p rest ih =>
      rw [eraseAssoc] at h
      by_cases hk : p.1 = k
      · rw [if_pos hk] at h
        exact List.mem_cons_of_mem p h
      · rw [if_neg hk] at h
        rcases List.mem_cons.mp h with h | h
        · exact h ▸ List.mem_cons_self p rest
        · exact List.mem_cons_of_mem p (ih h)

/-- A sequence of `consumeRequest` calls on one bucket id, at the given times;
returns the results in order. -/
def consumeSeq (bucketId : String) : List Nat → StoreState → List Bool × StoreState
  | [], st => ([], st)
  | t :: ts, st =>
      let (ok, st1) := BucketManager.consumeRequest st t bucketId
      let (rest, st2) := consumeSeq bucketId ts st1
      (ok :: rest, st2)


/-- Claim C2: `consumeRequest` for a stored, unexpired bucket it decrements
`remaining` by exactly one and returns `true` when tokens remain, and returns
`false` with the store unchanged when none remain; it never drives any stored
`remaining` below zero; and on a bucket created with the defaults
(`limit = 5`, `resetAfter = 5000` ms) five sequential calls succeed, a sixth
returns `false`, and a call after the 5000 ms window has elapsed succeeds
again. -/
theorem consumeRequest_spec (st : StoreState) (now : Nat) (bucketId : String) :
    (∀ bk : RateLimitBucket, lookupAssoc st.buckets bucketId = some bk → now ≤ bk.resetAt →
      ((0 < bk.remaining →
        BucketManager.consumeRequest st now bucketId =
          (true, MemoryRateLimitStore.setBucket st now bucketId
            { bk with remaining := bk.remaining - 1 })) ∧
       (bk.remaining ≤ 0 →
        BucketManager.consumeRequest st now bucketId = (false, st)))) ∧
    ((∀ kv ∈ st.buckets, 0 ≤ kv.2.remaining) →
      ∀ kv ∈ (BucketManager.consumeRequest st now bucketId).2.buckets,
        0 ≤ kv.2.remaining) ∧
    (consumeSeq "b" [0, 0, 0, 0, 0, 0, 5001] (StoreState.empty 0)).1 =
      [true, true, true, true, true, false, true] := by
  refine ⟨?_, ?_, by decide⟩
  · intro bk hfound hlive
    have hget : MemoryRateLimitStore.getBucket st now bucketId = (some bk, st) := by
      simp only [MemoryRateLimitStore.getBucket, hfound]
      rw [if_neg (by omega)]
    constructor
    · intro hpos
      rw [BucketManager.consumeRequest]
      simp only [BucketManager.getBucket, hget]
      rw [if_pos hpos]
    · intro hzero
      rw [BucketManager.consumeRequest]
      simp only [BucketManager.getBucket, hget]
      rw [if_neg (by omega)]
  · intro hnn kv hkv
    cases hfound : lookupAssoc st.buckets bucketId with
    | none =>
        have hget : MemoryRateLimitStore.getBucket st now bucketId = (none, st) := by
          simp only [MemoryRateLimitStore.getBucket, hfound]
        rw [BucketManager.consumeRequest] at hkv
        simp only [BucketManager.getBucket, hget, MemoryRateLimitStore.setBucket] at hkv
        norm_num at hkv
        rcases mem_setAssoc _ _ _ _ hkv with h | h
        · rw [h]; norm_num
        · rcases mem_setAssoc _ _ _ _ h with h | h
          · rw [h]; norm_num
          · exact hnn kv h
    | some bk =>
        by_cases hexp : bk.resetAt < now
        · have hget : MemoryRateLimitStore.getBucket st now bucketId =
              (none, { st with buckets := eraseAssoc st.buckets bucketId }) := by
            simp only [MemoryRateLimitStore.getBucket, hfound]
            rw [if_pos hexp]
          rw [BucketManager.consumeRequest] at hkv
          simp only [BucketManager.getBucket, hget, MemoryRateLimitStore.setBucket] at hkv
          norm_num at hkv
          rcases mem_setAssoc _ _ _ _ hkv with h | h
          · rw [h]; norm_num
          · rcases mem_setAssoc _ _ _ _ h with h | h
            · rw [h]; norm_num
            · exact hnn kv (mem_eraseAssoc _ _ _ h)
        · have hget : MemoryRateLimitStore.getBucket st now bucketId = (some bk, st) := by
            simp only [MemoryRateLimitStore.getBucket, hfound]
            rw [if_neg hexp]
          rw [BucketManager.consumeRequest] at hkv
          simp only [BucketManager.getBucket, hget] at hkv
          by_cases hpos : 0 < bk.remaining
          · rw [if_pos hpos] at hkv
            simp only [MemoryRateLimitStore.setBucket] at hkv
            rcases mem_setAssoc _ _ _ _ hkv with h | h
            · rw [h]
              dsimp only
              omega
            · exact hnn kv h
          · rw [if_neg hpos] at hkv
            exact hnn kv hkv

/-- A concrete stored bucket: 2 tokens left, window ends at `t = 5000`. -/
def sampleBucket : RateLimitBucket :=
  { id := "b", limit := 5, remaining := 2, resetAt := 5000, resetAfter := 5000,
    maxRetries := 3, lastUsed := 0, requests := [] }

/-- A concrete store holding `sampleBucket` under id `"b"`. -/
def sampleStore : StoreState :=
  MemoryRateLimitStore.setBucket (StoreState.empty 0) 0 "b" sampleBucket

/-- Witness for claim C2: consuming from the concrete stored bucket succeeds and
decrements `remaining` from 2 to 1. -/
theorem consumeRequest_spec_witness :
    lookupAssoc sampleStore.buckets "b" = some sampleBucket ∧
    (10 : Nat) ≤ sampleBucket.resetAt ∧
    (0 : Int) < sampleBucket.remaining ∧
    BucketManager.consumeRequest sampleStore 10 "b" =
      (true, MemoryRateLimitStore.setBucket sampleStore 10 "b"
        { sampleBucket with remaining := sampleBucket.remaining - 1 }) :=
  ⟨by decide, by decide, by decide,
    ((consumeRequest_spec sampleStore 10 "b").1 sampleBucket (by decide) (by decide)).1
      (by decide)⟩

/-- Claim C4: a store read (`getBucket`) after the bucket's `resetAt` has
elapsed returns `null` and removes the bucket from the map, and the next
manager-level read behaves as if the bucket were newly created with full
`remaining`, without any explicit reset call. -/
theorem bucket_read_past_reset_is_absent (st : StoreState) (now : Nat) (bucketId : String)
    (bk : RateLimitBucket) (dl dra : Nat)
    (hfound : lookupAssoc st.buckets bucketId = some bk)
    (hexp : bk.resetAt < now) :
    MemoryRateLimitStore.getBucket st now bucketId =
      (none, { st with buckets := eraseAssoc st.buckets bucketId }) ∧
    (BucketManager.getBucket st now bucketId dl dra).1 =
      { id := bucketId, limit := dl, remaining := (dl : Int), resetAt := now + dra,
        resetAfter := dra, maxRetries := 3, lastUsed := now, requests := [] } := by
  have hget : MemoryRateLimitStore.getBucket st now bucketId =
      (none, { st with buckets := eraseAssoc st.buckets bucketId }) := by
    simp only [MemoryRateLimitStore.getBucket, hfound]
    rw [if_pos hexp]
  refine ⟨hget, ?_⟩
  simp only [BucketManager.getBucket, hget]

/-- Witness for claim C4: reading `sampleBucket` at `t = 6000`, past its
`resetAt = 5000`, yields `null`, removes it, and the manager-level read then
produces a fresh bucket with full `remaining = 5`. -/
theorem bucket_read_past_reset_is_absent_witness :
    lookupAssoc sampleStore.buckets "b" = some sampleBucket ∧
    sampleBucket.resetAt < 6000 ∧
    MemoryRateLimitStore.getBucket sampleStore 6000 "b" =
      (none, { sampleStore with buckets := eraseAssoc sampleStore.buckets "b" }) ∧
    (BucketManager.getBucket sampleStore 6000 "b" 5 5000).1 =
      { id := "b", limit := 5, remaining := (5 : Int), resetAt := 6000 + 5000,
        resetAfter := 5000, maxRetries := 3, lastUsed := 6000, requests := [] } :=
  ⟨by decide, by decide,
    (bucket_read_past_reset_is_absent sampleStore 6000 "b" sampleBucket 5 5000
      (by decide) (by decide)).1,
    (bucket_read_past_reset_is_absent sampleStore 6000 "b" sampleBucket 5 5000
      (by decide) (by decide)).2⟩

/-! ### C3: a global limit blocks every bucket until its deadline -/

theorem isBucketLimited_false_of_fresh (st : StoreState) (t : Nat) (bucketId : String)
    (hb : ∀ bk : RateLimitBucket, lookupAssoc st.buckets bucketId = some bk →
      (0 < bk.remaining ∨ bk.resetAt ≤ t)) :
    (BucketManager.isBucketLimited st t bucketId).1 = false := by
  rw [BucketManager.isBucketLimited]
  cases hl : lookupAssoc st.buckets bucketId with
  | none => simp only [MemoryRateLimitStore.getBucket, hl]
  | some bk =>
      have hbk := hb bk hl
      simp only [MemoryRateLimitStore.getBucket, hl]
      by_cases hexp : bk.resetAt < t
      · rw [if_pos hexp]
      · rw [if_neg hexp]
        dsimp only
        rw [decide_eq_false]
        rintro ⟨h1, h2⟩
        omega

/-- Claim C3: after `handleRateLimit` ingests an info record with `global = true`
and `resetAfter = T`, the global limit is stored as the absolute deadline
`now + T`; `isRateLimited(bucketId)` is `true` for every bucket id at any time
before that deadline, and `false` from the deadline on for any bucket that is
itself unconstrained (absent, with tokens left, or expired). -/
theorem global_limit_blocks_all_buckets (s : OrchState) (now T t : Nat)
    (info : RateLimitInfo) (bucketId : String)
    (hg : info.global = true) (hT : info.resetAfter = T) (hrun : s.isShutdown = false) :
    ((DiscordRateLimitOrchestrator.handleRateLimit s now info).store.globalLimit =
      some { info with resetAfter := now + T }) ∧
    (t < now + T →
      (DiscordRateLimitMiddleware.isRateLimited
        (DiscordRateLimitOrchestrator.handleRateLimit s now info).store t bucketId).1 =
        true) ∧
    (now + T ≤ t →
      (∀ bk : RateLimitBucket, lookupAssoc s.store.buckets bucketId = some bk →
        (0 < bk.remaining ∨ bk.resetAt ≤ t)) →
      (DiscordRateLimitMiddleware.isRateLimited
        (DiscordRateLimitOrchestrator.handleRateLimit s now info).store t bucketId).1 =
        false) := by
  have hstore : (DiscordRateLimitOrchestrator.handleRateLimit s now info).store =
      { s.store with
        globalLimit := some { info with resetAfter := now + T },
        metrics := { s.store.metrics with
                     globalRateLimits := s.store.metrics.globalRateLimits + 1 } } := by
    rw [DiscordRateLimitOrchestrator.handleRateLimit, if_neg (by simp [hrun]), if_pos hg,
      MemoryRateLimitStore.setGlobalLimit, hT]
  refine ⟨by rw [hstore], ?_, ?_⟩
  · intro ht
    rw [DiscordRateLimitMiddleware.isRateLimited, hstore]
    simp only [MemoryRateLimitStore.getGlobalLimit]
    rw [if_neg (show ¬ (({ info with resetAfter := now + T } :
        RateLimitInfo).resetAfter < t) by dsimp only; omega)]
    dsimp only
    rw [if_pos (show t < ({ info with resetAfter := now + T} :
        RateLimitInfo).resetAfter by dsimp only; omega)]
  · intro ht hb
    rw [DiscordRateLimitMiddleware.isRateLimited, hstore]
    simp only [MemoryRateLimitStore.getGlobalLimit]
    by_cases hgone : now + T < t
    · rw [if_pos (show (({ info with resetAfter := now + T } :
          RateLimitInfo).resetAfter < t) by dsimp only; omega)]
      dsimp only
      rw [BucketManager.isRateLimited]
      simp only [MemoryRateLimitStore.getGlobalLimit]
      exact isBucketLimited_false_of_fresh _ t bucketId hb
    · rw [if_neg (show ¬ (({ info with resetAfter := now + T } :
          RateLimitInfo).resetAfter < t) by dsimp only; omega)]
      dsimp only
      rw [if_neg (show ¬ (t < ({ info with resetAfter := now + T } :
          RateLimitInfo).resetAfter) by dsimp only; omega)]
      rw [BucketManager.isRateLimited]
      simp only [MemoryRateLimitStore.getGlobalLimit]
      rw [if_neg (show ¬ (({ info with resetAfter := now + T } :
          RateLimitInfo).resetAfter < t) by dsimp only; omega)]
      dsimp only
      rw [if_neg (show ¬ (t < ({ info with resetAfter := now + T } :
          RateLimitInfo).resetAfter) by dsimp only; omega)]
      exact isBucketLimited_false_of_fresh _ t bucketId hb

/-- A concrete global 429 info record: everything is blocked for 50 ms. -/
def sampleGlobalInfo : RateLimitInfo :=
  { limit := 50, remaining := 0, resetAfter := 50, maxRetries := 3, retryAfter := 50,
    global := true, bucket := none }

/-- Witness for claim C3: after ingesting the global info at `t = 100`, the
arbitrary bucket id `"x"` is limited at `t = 120` and no longer limited at
`t = 160`. -/
theorem global_limit_blocks_all_buckets_witness :
    sampleGlobalInfo.global = true ∧
    (DiscordRateLimitOrchestrator.init 0).isShutdown = false ∧
    (DiscordRateLimitMiddleware.isRateLimited
      (DiscordRateLimitOrchestrator.handleRateLimit
        (DiscordRateLimitOrchestrator.init 0) 100 sampleGlobalInfo).store 120 "x").1 =
      true ∧
    (DiscordRateLimitMiddleware.isRateLimited
      (DiscordRateLimitOrchestrator.handleRateLimit
        (DiscordRateLimitOrchestrator.init 0) 100 sampleGlobalInfo).store 160 "x").1 =
      false :=
  ⟨rfl, rfl,
   (global_limit_blocks_all_buckets (DiscordRateLimitOrchestrator.init 0) 100 50 120
     sampleGlobalInfo "x" rfl rfl rfl).2.1 (by omega),
   (global_limit_blocks_all_buckets (DiscordRateLimitOrchestrator.init 0) 100 50 160
     sampleGlobalInfo "x" rfl rfl rfl).2.2 (by omega)
     (fun bk h => Option.noConfusion h)⟩

/-! ### C9: export/import round-trip -/

/-- Claim C9, counterexample: the round-trip is not the identity on every
reachable store state: storing a bucket sets `metrics.bucketCount` to 1, a
lazy-expiry read (`getBucket` past `resetAt`) then deletes the bucket without
touching `metrics.bucketCount`, and `importState(exportState())` of the
resulting state rewrites `bucketCount` from the stale 1 to the actual map size
0 — so the imported state differs from the exported one in its metrics
snapshot. -/
theorem import_export_roundtrip_counterexample :
    (MemoryRateLimitStore.getBucket sampleStore 6000 "b").1 = none ∧
    (MemoryRateLimitStore.getBucket sampleStore 6000 "b").2.metrics.bucketCount = 1 ∧
    (MemoryRateLimitStore.getBucket sampleStore 6000 "b").2.buckets = [] ∧
    MemoryRateLimitStore.importState (MemoryRateLimitStore.exportState
      (MemoryRateLimitStore.getBucket sampleStore 6000 "b").2) ≠
      (MemoryRateLimitStore.getBucket sampleStore 6000 "b").2 := by
  decide

/-- Claim C9, amended: `importState(exportState())` reproduces the bucket map
and the global limit exactly, and every metrics field except `bucketCount`,
which it normalizes to the size of the imported bucket map; in particular the
round-trip is the identity whenever `metrics.bucketCount` agrees with the
actual map size (as it does except after a lazy-expiry read). -/
theorem import_export_roundtrip (st : StoreState) :
    (MemoryRateLimitStore.importState (MemoryRateLimitStore.exportState st)).buckets =
      st.buckets ∧
    (MemoryRateLimitStore.importState (MemoryRateLimitStore.exportState st)).globalLimit =
      st.globalLimit ∧
    (MemoryRateLimitStore.importState (MemoryRateLimitStore.exportState st)).metrics =
      { st.metrics with bucketCount := st.buckets.length } ∧
    (st.metrics.bucketCount = st.buckets.length →
      MemoryRateLimitStore.importState (MemoryRateLimitStore.exportState st) = st) := by
  refine ⟨rfl, rfl, rfl, ?_⟩
  intro h
  rw [MemoryRateLimitStore.importState, MemoryRateLimitStore.exportState]
  rw [← h]

/-- Witness for claim C9 as amended: on the concrete store whose `bucketCount` is
in sync, the round-trip is the identity. -/
theorem import_export_roundtrip_witness :
    sampleStore.metrics.bucketCount = sampleStore.buckets.length ∧
    MemoryRateLimitStore.importState (MemoryRateLimitStore.exportState sampleStore) =
      sampleStore :=
  ⟨by decide, (import_export_roundtrip sampleStore).2.2.2 (by decide)⟩


/-! ### C7: shutdown is idempotent and makes enqueue fail fast -/

theorem withDefaults_priority (r : QueuedRequest) :
    (DiscordRateLimitOrchestrator.withDefaults r).priority =
      DiscordRateLimitOrchestrator.effectivePriority r := by
  by_cases hm : r.maxRetries = 0 <;> by_cases ht : r.timeout = 0 <;>
    simp [DiscordRateLimitOrchestrator.withDefaults, hm, ht]

theorem pq_enqueue_queued (q : PQState) (r : QueuedRequest) (pid : Nat)
    (hspace : q.totalSize < (q.maxSize : Int)) (h5 : q.queues.length = 5)
    (hp : r.priority < 5) :
    (PriorityQueue.enqueue q r pid).2 = EnqueueOutcome.queued := by
  rw [PriorityQueue.enqueue, if_neg (by omega)]
  have hlt : r.priority < q.queues.length := by omega
  rw [List.getElem?_eq_getElem hlt]

/-- Claim C7: `shutdown()` is idempotent; after a shutdown every `enqueue` fails
fast with the shutdown error and leaves the state unchanged; the immediate
errors of `enqueue` are exactly queue-full, shutdown and invalid-priority; and
on a live orchestrator with queue capacity left and a valid (post-default)
priority, `enqueue` never surfaces an error — a rate limit only queues. -/
theorem shutdown_idempotent_enqueue_fails_fast (s : OrchState) (now now2 : Nat)
    (r : QueuedRequest) (resolveBucket : String → String → String) :
    (DiscordRateLimitOrchestrator.shutdown (DiscordRateLimitOrchestrator.shutdown s now)
        now2 = DiscordRateLimitOrchestrator.shutdown s now) ∧
    (DiscordRateLimitOrchestrator.enqueue (DiscordRateLimitOrchestrator.shutdown s now)
        now2 r resolveBucket =
      (DiscordRateLimitOrchestrator.shutdown s now, .error .shutdownError)) ∧
    (∀ e : EnqueueError,
      (DiscordRateLimitOrchestrator.enqueue s now r resolveBucket).2 = .error e →
      e = .shutdownError ∨ e = .queueFull ∨ e = .invalidPriority) ∧
    (s.isShutdown = false → s.queue.queues.length = 5 →
      s.queue.totalSize < (s.queue.maxSize : Int) →
      DiscordRateLimitOrchestrator.effectivePriority r < 5 →
      ∃ d : EnqueueDisposition,
        (DiscordRateLimitOrchestrator.enqueue s now r resolveBucket).2 = .ok d) := by
  have hsd : (DiscordRateLimitOrchestrator.shutdown s now).isShutdown = true := by
    rw [DiscordRateLimitOrchestrator.shutdown]
    by_cases h : s.isShutdown = true
    · rw [if_pos h]; exact h
    · rw [if_neg h]
  have hgen : ∀ (x : OrchState) (m : Nat), x.isShutdown = true →
      DiscordRateLimitOrchestrator.shutdown x m = x := by
    intro x m h
    rw [DiscordRateLimitOrchestrator.shutdown, if_pos h]
  refine ⟨hgen _ now2 hsd, ?_, ?_, ?_⟩
  · rw [DiscordRateLimitOrchestrator.enqueue, if_pos hsd]
  · intro e _
    cases e
    · exact .inl rfl
    · exact .inr (.inl rfl)
    · exact .inr (.inr rfl)
  · intro hns h5 hspace hprio
    rw [DiscordRateLimitOrchestrator.enqueue, if_neg (by simp [hns])]
    rw [DiscordRateLimitMiddleware.execute]
    dsimp only
    have hpr : ({ DiscordRateLimitOrchestrator.withDefaults r with
        bucketId := some (resolveBucketId (DiscordRateLimitOrchestrator.withDefaults r)
          resolveBucket) } : QueuedRequest).priority < 5 := by
      have := withDefaults_priority r
      dsimp only
      omega
    cases hlim : (DiscordRateLimitMiddleware.isRateLimited s.store now
        (resolveBucketId (DiscordRateLimitOrchestrator.withDefaults r) resolveBucket)).1 with
    | true =>
        rw [pq_enqueue_queued s.queue _ s.nextPid hspace h5 hpr]
        exact ⟨_, rfl⟩
    | false =>
        cases hcons : (BucketManager.consumeRequest
            (DiscordRateLimitMiddleware.isRateLimited s.store now
              (resolveBucketId (DiscordRateLimitOrchestrator.withDefaults r)
                resolveBucket)).2 now
            (resolveBucketId (DiscordRateLimitOrchestrator.withDefaults r)
              resolveBucket)).1 with
        | true => exact ⟨_, rfl⟩
        | false =>
            rw [pq_enqueue_queued s.queue _ s.nextPid hspace h5 hpr]
            exact ⟨_, rfl⟩

/-- Witness for claim C7 at a freshly constructed orchestrator and the concrete
sample request. -/
theorem shutdown_idempotent_enqueue_fails_fast_witness :
    (DiscordRateLimitOrchestrator.shutdown
        (DiscordRateLimitOrchestrator.shutdown (DiscordRateLimitOrchestrator.init 0) 5) 6 =
      DiscordRateLimitOrchestrator.shutdown (DiscordRateLimitOrchestrator.init 0) 5) ∧
    (DiscordRateLimitOrchestrator.enqueue
        (DiscordRateLimitOrchestrator.shutdown (DiscordRateLimitOrchestrator.init 0) 5) 6
        sampleReq (fun _ _ => "rb") =
      (DiscordRateLimitOrchestrator.shutdown (DiscordRateLimitOrchestrator.init 0) 5,
        .error .shutdownError)) ∧
    (DiscordRateLimitOrchestrator.init 0).isShutdown = false ∧
    (∃ d : EnqueueDisposition,
      (DiscordRateLimitOrchestrator.enqueue (DiscordRateLimitOrchestrator.init 0) 5
        sampleReq (fun _ _ => "rb")).2 = .ok d) :=
  ⟨(shutdown_idempotent_enqueue_fails_fast (DiscordRateLimitOrchestrator.init 0) 5 6
      sampleReq (fun _ _ => "rb")).1,
   (shutdown_idempotent_enqueue_fails_fast (DiscordRateLimitOrchestrator.init 0) 5 6
      sampleReq (fun _ _ => "rb")).2.1,
   rfl,
   (shutdown_idempotent_enqueue_fails_fast (DiscordRateLimitOrchestrator.init 0) 5 5
      sampleReq (fun _ _ => "rb")).2.2.2 rfl rfl (by decide) (by decide)⟩

/-! ### C8: retry classification of transport results -/

/-- One transport attempt as `executeRequest` observes it: an HTTP response
(status and optional body `message` field), an error thrown by the HTTP client
(JavaScript `error.code` and `error.message`), or the loss of the
`Promise.race` against the request timeout. -/
inductive HttpResult
  | response (status : Nat) (dataMessage : Option String)
  | networkError (code : Option String) (message : String)
  | timedOut
deriving Repr, DecidableEq

/-- How one pass of `executeRequest` leaves the request: resolved with the
response data; re-enqueued by `retryRequest` after incrementing `retryCount`;
failed inside `retryRequest` because the incremented `retryCount` exceeded
`maxRetries`; or failed terminally with `retryCount` untouched (the value is
carried in the outcome so the untouched budget is visible). -/
inductive ExecOutcome
  | success
  | retried (newRetryCount : Nat)
  | failedRetriesExhausted (newRetryCount : Nat)
  | failedTerminal (retryCount : Nat) (message : String)
deriving Repr, DecidableEq

/-- Embeds `DiscordRateLimitMiddleware.shouldRetry` (`middleware.ts`): no retry once
`retryCount >= maxRetries`; retry on the `ECONNRESET`/`ETIMEDOUT` error codes,
or when the error message contains `timeout`, `HTTP 5` or `HTTP 429`. -/
def DiscordRateLimitMiddleware.shouldRetry (errCode : Option String) (errMessage : String)
    (r : QueuedRequest) : Bool :=
  if r.maxRetries ≤ r.retryCount then false
  else if errCode == some "ECONNRESET" || errCode == some "ETIMEDOUT" then true
  else if strIncludes errMessage "timeout" then true
  else if strIncludes errMessage "HTTP 5" then true
  else if strIncludes errMessage "HTTP 429" then true
  else false

/-- Embeds `DiscordRateLimitMiddleware.retryRequest` (`middleware.ts`): increments
`retryCount`, throws the retries-exceeded error when it now exceeds
`maxRetries`, otherwise waits out the backoff delay and re-enqueues. -/
def DiscordRateLimitMiddleware.retryRequest (r : QueuedRequest) : ExecOutcome :=
  if r.maxRetries < r.retryCount + 1 then .failedRetriesExhausted (r.retryCount + 1)
  else .retried (r.retryCount + 1)

/-- The message of the error `executeRequest` throws for a non-2xx, non-429
response. -/
def httpErrorMessage (status : Nat) (dataMessage : Option String) : String :=
  "HTTP " ++ toString status ++ ": " ++ dataMessage.getD "Unknown error"

/-- Embeds `DiscordRateLimitMiddleware.executeRequest` (`middleware.ts`), reduced to
its retry decision (header ingestion and metric updates elided — they do not
influence the decision): a 429 response goes straight to `retryRequest`; a 2xx
resolves; any other response raises the `HTTP <status>: <message>` error inside
the same `try`, so it is caught by the surrounding `catch` and classified by
`shouldRetry` like a thrown network error or a lost timeout race. -/
def DiscordRateLimitMiddleware.executeRequest (r : QueuedRequest) (res : HttpResult) :
    ExecOutcome :=
  match res with
  | .timedOut =>
      let msg := "Request timeout after 30000ms"
      if DiscordRateLimitMiddleware.shouldRetry none msg r then
        DiscordRateLimitMiddleware.retryRequest r
      else .failedTerminal r.retryCount msg
  | .networkError code msg =>
      if DiscordRateLimitMiddleware.shouldRetry code msg r then
        DiscordRateLimitMiddleware.retryRequest r
      else .failedTerminal r.retryCount msg
  | .response status dataMessage =>
      if status == 429 then DiscordRateLimitMiddleware.retryRequest r
      else if 200 ≤ status ∧ status < 300 then .success
      else
        if DiscordRateLimitMiddleware.shouldRetry none
            (httpErrorMessage status dataMessage) r then
          DiscordRateLimitMiddleware.retryRequest r
        else .failedTerminal r.retryCount (httpErrorMessage status dataMessage)

/-- Claim C8, counterexample: a 4xx response other than 429 is not always
terminal: the error message for a 400 response whose body message is
"gateway timeout" is "HTTP 400: gateway timeout", which contains "timeout", so
`shouldRetry` classifies it as retryable and `executeRequest` re-enqueues it
with `retryCount` incremented from 0 to 1 — the claim says it is surfaced
immediately with the retry budget untouched. -/
theorem retry_4xx_timeout_message_counterexample :
    sampleReq.retryCount = 0 ∧
    DiscordRateLimitMiddleware.executeRequest sampleReq
      (.response 400 (some "gateway timeout")) = .retried 1 := by
  decide

theorem shouldRetry_false_of_no_pattern (errMessage : String) (r : QueuedRequest)
    (ht : strIncludes errMessage "timeout" = false)
    (h5 : strIncludes errMessage "HTTP 5" = false)
    (h429 : strIncludes errMessage "HTTP 429" = false) :
    DiscordRateLimitMiddleware.shouldRetry none errMessage r = false := by
  rw [DiscordRateLimitMiddleware.shouldRetry]
  by_cases hA : r.maxRetries ≤ r.retryCount
  · rw [if_pos hA]
  · rw [if_neg hA]
    simp [ht, h5, h429]

theorem retryRequest_retried (r : QueuedRequest) (hb : r.retryCount < r.maxRetries) :
    DiscordRateLimitMiddleware.retryRequest r = .retried (r.retryCount + 1) := by
  rw [DiscordRateLimitMiddleware.retryRequest, if_neg (by omega)]

theorem isPrefixOf_append_right (l x y : List Char) (h : l.isPrefixOf x = true) :
    l.isPrefixOf (x ++ y) = true := by
  induction l generalizing x with
  | nil => cases hxy : x ++ y <;> rfl
  | cons c cs ih =>
      cases x with
      | nil => simp [List.isPrefixOf] at h
      | cons d ds =>
          rw [List.cons_append]
          rw [List.isPrefixOf] at h ⊢
          rw [Bool.and_eq_true] at h ⊢
          exact ⟨h.1, ih ds h.2⟩

theorem charsInside_of_isPrefixOf (pat s : List Char) (h : pat.isPrefixOf s = true) :
    charsInside pat s = true := by
  cases s with
  | nil =>
      rw [charsInside]
      cases pat with
      | nil => rfl
      | cons c cs => simp [List.isPrefixOf] at h
  | cons c rest =>
      rw [charsInside, h, Bool.true_or]

theorem http5_head (status : Nat) (h1 : 500 ≤ status) (h2 : status < 600) :
    ("HTTP 5".toList).isPrefixOf (("HTTP " ++ toString status).toList) = true := by
  have hk : ∃ k, k < 100 ∧ status = 500 + k := ⟨status - 500, by omega, by omega⟩
  obtain ⟨k, hk1, rfl⟩ := hk
  clear h1 h2
  revert k
  decide

theorem http5_in_message (status : Nat) (h1 : 500 ≤ status) (h2 : status < 600)
    (dataMessage : Option String) :
    strIncludes (httpErrorMessage status dataMessage) "HTTP 5" = true := by
  rw [strIncludes, httpErrorMessage]
  apply charsInside_of_isPrefixOf
  have hsplit : ("HTTP " ++ toString status ++ ": " ++ dataMessage.getD "Unknown error").toList =
      ("HTTP " ++ toString status).toList ++
        ((": " ++ dataMessage.getD "Unknown error").toList) := by
    simp
  rw [hsplit]
  exact isPrefixOf_append_right _ _ _ (http5_head status h1 h2)

/-- Claim C8, amended: during request execution, a response with a 4xx status
other than 429 whose error string `HTTP <status>: <body message>` contains none
of the substrings `timeout`, `HTTP 5` and `HTTP 429` is surfaced to the caller
immediately as a terminal failure, without a retry and with `retryCount`
untouched (the substring caveat is forced by the message matching
in `shouldRetry` — see the counterexample); connection reset, the timed-out race, 5xx responses
and 429 responses are retried (within the retry budget). -/
theorem retry_classification (r : QueuedRequest) (status : Nat)
    (dataMessage : Option String) (msg : String) :
    (400 ≤ status → status < 500 → status ≠ 429 →
      strIncludes (httpErrorMessage status dataMessage) "timeout" = false →
      strIncludes (httpErrorMessage status dataMessage) "HTTP 5" = false →
      strIncludes (httpErrorMessage status dataMessage) "HTTP 429" = false →
      DiscordRateLimitMiddleware.executeRequest r (.response status dataMessage) =
        .failedTerminal r.retryCount (httpErrorMessage status dataMessage)) ∧
    (r.retryCount < r.maxRetries →
      (DiscordRateLimitMiddleware.executeRequest r (.networkError (some "ECONNRESET") msg) =
        .retried (r.retryCount + 1)) ∧
      (DiscordRateLimitMiddleware.executeRequest r (.networkError (some "ETIMEDOUT") msg) =
        .retried (r.retryCount + 1)) ∧
      (DiscordRateLimitMiddleware.executeRequest r .timedOut =
        .retried (r.retryCount + 1)) ∧
      (500 ≤ status → status < 600 →
        DiscordRateLimitMiddleware.executeRequest r (.response status dataMessage) =
          .retried (r.retryCount + 1)) ∧
      (DiscordRateLimitMiddleware.executeRequest r (.response 429 dataMessage) =
        .retried (r.retryCount + 1))) := by
  constructor
  · intro h1 h2 h3 ht h5 h429
    rw [DiscordRateLimitMiddleware.executeRequest]
    rw [if_neg (show ¬ ((status == 429) = true) by simp only [beq_iff_eq]; exact h3)]
    rw [if_neg (show ¬ (200 ≤ status ∧ status < 300) by omega)]
    rw [shouldRetry_false_of_no_pattern _ r ht h5 h429]
    rw [if_neg (by simp)]
  · intro hb
    have hretry := retryRequest_retried r hb
    refine ⟨?_, ?_, ?_, ?_, ?_⟩
    · rw [DiscordRateLimitMiddleware.executeRequest]
      rw [if_pos (show (DiscordRateLimitMiddleware.shouldRetry (some "ECONNRESET") msg r) =
          true by rw [DiscordRateLimitMiddleware.shouldRetry, if_neg (by omega)]; rfl)]
      exact hretry
    · rw [DiscordRateLimitMiddleware.executeRequest]
      rw [if_pos (show (DiscordRateLimitMiddleware.shouldRetry (some "ETIMEDOUT") msg r) =
          true by rw [DiscordRateLimitMiddleware.shouldRetry, if_neg (by omega)]; rfl)]
      exact hretry
    · rw [DiscordRateLimitMiddleware.executeRequest]
      rw [if_pos (show (DiscordRateLimitMiddleware.shouldRetry none
          "Request timeout after 30000ms" r) = true by
        rw [DiscordRateLimitMiddleware.shouldRetry, if_neg (by omega)]
        decide)]
      exact hretry
    · intro h1 h2
      rw [DiscordRateLimitMiddleware.executeRequest]
      rw [if_neg (show ¬ ((status == 429) = true) by simp only [beq_iff_eq]; omega)]
      rw [if_neg (show ¬ (200 ≤ status ∧ status < 300) by omega)]
      have hsr : DiscordRateLimitMiddleware.shouldRetry none
          (httpErrorMessage status dataMessage) r = true := by
        rw [DiscordRateLimitMiddleware.shouldRetry, if_neg (by omega)]
        cases htm : strIncludes (httpErrorMessage status dataMessage) "timeout" with
        | true => simp
        | false => simp [http5_in_message status h1 h2 dataMessage]
      rw [if_pos hsr]
      exact hretry
    · rw [DiscordRateLimitMiddleware.executeRequest]
      rw [if_pos (show ((429 : Nat) == 429) = true from rfl)]
      exact hretry

/-- Witness for claim C8 as amended: a plain 404 is terminal with the retry budget
untouched, while a 503 is retried. -/
theorem retry_classification_witness :
    strIncludes (httpErrorMessage 404 (some "Not Found")) "timeout" = false ∧
    (DiscordRateLimitMiddleware.executeRequest sampleReq (.response 404 (some "Not Found")) =
      .failedTerminal sampleReq.retryCount (httpErrorMessage 404 (some "Not Found"))) ∧
    (DiscordRateLimitMiddleware.executeRequest sampleReq (.response 503 none) =
      .retried (sampleReq.retryCount + 1)) :=
  ⟨by decide,
   (retry_classification sampleReq 404 (some "Not Found") "x").1 (by decide) (by decide)
     (by decide) (by decide) (by decide) (by decide),
   ((retry_classification sampleReq 503 none "x").2 (by decide)).2.2.2.1 (by decide)
     (by decide)⟩
